import Mathlib

/-!
Verification of the hot-crypto-trader core against its specification.

Shallow embedding of the components under `src/core/`:
ensemble aggregation (`ensemble.py`), risk management (`risk_manager.py`),
circuit breakers (`circuit_breaker.py`), the paper-trading portfolio
(`portfolio.py`), the order executor (`execution.py`) and the Hurst
computation of the regime detector (`regime_detector.py`).

Python floats are modelled as rationals (`ℚ`), wall-clock time as a
rational number of seconds, and UTC dates as integers.  Formatted reason
strings are modelled as structured tags; fields that no claim touches
(log messages, `extra` auxiliary maps) are omitted.
-/

namespace HotCrypto

/-- `min` on ℚ, written with an explicit comparison so that concrete
witnesses kernel-evaluate. -/
def minQ (x y : ℚ) : ℚ := if x ≤ y then x else y

/-- `max` on ℚ with an explicit comparison. -/
def maxQ (x y : ℚ) : ℚ := if x ≤ y then y else x

/-- `max` on ℤ with an explicit comparison. -/
def maxZ (x y : ℤ) : ℤ := if x ≤ y then y else x

/-- `np.clip(a, lo, hi)`: `min (max a lo) hi`. -/
def npClip (a lo hi : ℚ) : ℚ := minQ (maxQ a lo) hi

/-- Arithmetic mean of a list (`np.mean`); callers guard non-emptiness. -/
def listMean (l : List ℚ) : ℚ := l.sum / (l.length : ℚ)

/-- Python slice `l[-k:]` for `k ≥ 0`: the last `k` elements, except that
`l[-0:]` is the whole list. -/
def pySliceLast {α : Type} (k : ℕ) (l : List α) : List α :=
  if k = 0 then l else l.drop (l.length - k)

-- ---------------------------------------------------------------------------
-- Ensemble (src/core/ensemble.py)
-- ---------------------------------------------------------------------------

/-- Signal actions (the strings "OPEN_LONG", …, "HOLD" of the source). -/
inductive Action
  | OPEN_LONG
  | OPEN_SHORT
  | CLOSE_LONG
  | CLOSE_SHORT
  | HOLD
deriving DecidableEq, Repr

/-- Market regimes (`regime_detector.Regime`). -/
inductive Regime
  | TRENDING_STRONG
  | TRENDING_WEAK
  | MEAN_REVERTING
  | RANDOM_WALK
deriving DecidableEq, Repr

/-- A strategy's raw signal as consumed by `Ensemble.aggregate`
(`getattr(signal, "action", ...)` / `confidence`; the `extra` map is not
modelled since no claim touches it). -/
structure StrategySignal where
  action : Action
  confidence : ℚ
deriving DecidableEq, Repr

/-- `ensemble.StrategyVote` (the `extra` dict is omitted). -/
structure StrategyVote where
  strategyName : String
  action : Action
  confidence : ℚ
  regimeWeight : ℚ
deriving DecidableEq, Repr

/-- `StrategyVote.weighted_score = confidence * regime_weight`. -/
def weightedScore (v : StrategyVote) : ℚ := v.confidence * v.regimeWeight

/-- `ensemble.EnsembleSignal`.  The `action` field is an `Option` because the
source initialises `best_action = None` and only ever replaces it by a
string; `some a` models the string of `a`. -/
structure EnsembleSignal where
  action : Option Action
  confidence : ℚ
  votesFor : ℕ
  votesTotal : ℕ
  consensusMet : Bool
  regime : Regime
  strategyVotes : List StrategyVote
deriving DecidableEq, Repr

/-- Construction-time parameters of `Ensemble`. -/
structure EnsembleConfig where
  consensusThreshold : ℕ
  minWeightedConfidence : ℚ
deriving DecidableEq, Repr

/-- Vote construction loop of `Ensemble.aggregate`: regime weight is
`regime_weights.get(norm_name, 0.3)`.  `regimeWeights` stands for
`self.affinity_map.get(regime_state.regime, {})` and names are taken
already in the normalized form produced by `_normalize_strategy_name`. -/
def buildVotes (regimeWeights : List (String × ℚ))
    (signals : List (String × StrategySignal)) : List StrategyVote :=
  signals.map fun p =>
    ⟨p.1, p.2.action, p.2.confidence, ((regimeWeights.lookup p.1).getD (3/10))⟩

/-- `action_scores.setdefault(vote.action, []).append(vote)` on an
insertion-ordered association list. -/
def insertVote (acc : List (Action × List StrategyVote)) (v : StrategyVote) :
    List (Action × List StrategyVote) :=
  match acc with
  | [] => [(v.action, [v])]
  | (a, vs) :: rest =>
      if a = v.action then (a, vs ++ [v]) :: rest
      else (a, vs) :: insertVote rest v

/-- The `action_scores` dict: non-HOLD votes grouped by action, in first
occurrence order (Python dicts preserve insertion order). -/
def actionScores (votes : List StrategyVote) : List (Action × List StrategyVote) :=
  votes.foldl (fun acc v => if v.action = .HOLD then acc else insertVote acc v) []

/-- `sum(v.weighted_score for v in voters)`. -/
def totalScore (vs : List StrategyVote) : ℚ := (vs.map weightedScore).sum

/-- The best-action selection loop (`total_score > best_score` with
`best_action = None`, `best_score = 0.0` initially). -/
def pickBest (scores : List (Action × List StrategyVote)) :
    Option Action × ℚ × List StrategyVote :=
  scores.foldl
    (fun best p =>
      if totalScore p.2 > best.2.1 then (some p.1, totalScore p.2, p.2) else best)
    (none, 0, [])

/-- `has_buy`: an OPEN_LONG entry is present in `action_scores`. -/
def hasBuy (scores : List (Action × List StrategyVote)) : Bool :=
  scores.any fun p => p.1 = .OPEN_LONG

/-- `has_sell`: an OPEN_SHORT or CLOSE_LONG entry is present. -/
def hasSell (scores : List (Action × List StrategyVote)) : Bool :=
  scores.any fun p => p.1 = .OPEN_SHORT ∨ p.1 = .CLOSE_LONG

/-- `buy_score`: total weighted score of OPEN_LONG voters. -/
def buyScore (scores : List (Action × List StrategyVote)) : ℚ :=
  ((scores.filter fun p => p.1 = .OPEN_LONG).map fun p => totalScore p.2).sum

/-- `sell_score`: total weighted score of OPEN_SHORT and CLOSE_LONG voters. -/
def sellScore (scores : List (Action × List StrategyVote)) : ℚ :=
  ((scores.filter fun p => p.1 = .OPEN_SHORT ∨ p.1 = .CLOSE_LONG).map
    fun p => totalScore p.2).sum

/-- `action_scores.get(a, [])`. -/
def lookupVoters (a : Action) (scores : List (Action × List StrategyVote)) :
    List StrategyVote :=
  ((scores.lookup a).getD [])

/-- `votes_total = sum(len(vs) for vs in action_scores.values())`. -/
def votesTotalOf (scores : List (Action × List StrategyVote)) : ℕ :=
  (scores.map fun p => p.2.length).sum

/-- Tail of `Ensemble.aggregate` (lines 256–292): consensus threshold,
minimum-confidence override and final-action downgrade. -/
def finishSignal (cfg : EnsembleConfig) (regime : Regime)
    (votes : List StrategyVote) (bestAction : Option Action)
    (bestVoters : List StrategyVote) (votesTotal : ℕ) : EnsembleSignal :=
  let votesFor := bestVoters.length
  let avgConfidence : ℚ :=
    if bestVoters.length ≠ 0 then totalScore bestVoters / (bestVoters.length : ℚ)
    else 0
  let consensusMet : Bool :=
    decide (cfg.consensusThreshold ≤ votesFor)
      && !(decide (avgConfidence < cfg.minWeightedConfidence))
  let finalAction : Option Action := if consensusMet then bestAction else some .HOLD
  ⟨finalAction, avgConfidence, votesFor, votesTotal, consensusMet, regime, votes⟩

/-- `Ensemble.aggregate` (src/core/ensemble.py, lines 138–301). -/
def aggregate (cfg : EnsembleConfig) (regime : Regime)
    (regimeWeights : List (String × ℚ))
    (signals : List (String × StrategySignal)) : EnsembleSignal :=
  let votes := buildVotes regimeWeights signals
  let scores := actionScores votes
  if scores = [] then
    ⟨some .HOLD, 0, 0, 0, false, regime, votes⟩
  else
    let best := pickBest scores
    if hasBuy scores && hasSell scores then
      if buyScore scores > sellScore scores * 2 then
        finishSignal cfg regime votes (some .OPEN_LONG)
          (lookupVoters .OPEN_LONG scores) (votesTotalOf scores)
      else if sellScore scores > buyScore scores * 2 then
        if (scores.lookup .CLOSE_LONG).isSome then
          finishSignal cfg regime votes (some .CLOSE_LONG)
            (lookupVoters .CLOSE_LONG scores) (votesTotalOf scores)
        else
          finishSignal cfg regime votes (some .OPEN_SHORT)
            (lookupVoters .OPEN_SHORT scores) (votesTotalOf scores)
      else
        ⟨some .HOLD, 0, 0, scores.length, false, regime, votes⟩
    else
      finishSignal cfg regime votes best.1 best.2.2 (votesTotalOf scores)

-- ---------------------------------------------------------------------------
-- RiskManager (src/core/risk_manager.py)
-- ---------------------------------------------------------------------------

/-- Construction-time parameters of `RiskManager.__init__`. -/
structure RiskConfig where
  initialEquity : ℚ
  riskPerTrade : ℚ
  maxOpenPositions : ℕ
  maxDailyLossPct : ℚ
  maxTotalDrawdownPct : ℚ
  cooldownMinutes : ℚ
  minAtrPctFilter : ℚ
  spreadGuardBps : ℚ
  kellyLookback : ℕ
  kellyFraction : ℚ
  targetAnnualVol : ℚ
  correlationThreshold : ℚ
deriving DecidableEq, Repr

/-- One entry of `RiskManager.trade_history` (the `ts` ISO string is not
modelled). -/
structure TradeEntry where
  pnl : ℚ
  pnlPct : ℚ
  symbol : String
deriving DecidableEq, Repr

/-- Mutable state of a `RiskManager`.  `openPositions` is an integer, as in
Python, so that non-negativity is a provable invariant rather than a typing
artefact. -/
structure RiskState where
  currentEquity : ℚ
  peakEquity : ℚ
  dailyStartingEquity : ℚ
  dailyPnl : ℚ
  openPositions : ℤ
  lastLossTime : Option ℚ
  consecutiveLosses : ℕ
  lastResetDate : Option ℤ
  tradeHistory : List TradeEntry
deriving DecidableEq, Repr

/-- State produced by `RiskManager.__init__`. -/
def freshRisk (cfg : RiskConfig) : RiskState :=
  ⟨cfg.initialEquity, cfg.initialEquity, cfg.initialEquity, 0, 0, none, 0, none, []⟩

/-- Rejection reasons of `evaluate_trade` (the formatted strings of the
source, as tags). -/
inductive RiskReason
  | dailyLossLimit
  | maxDrawdown
  | maxPositions
  | cooldownActive
  | atrTooLow
  | spreadTooWide
  | zeroSize
  | approvedTrade
deriving DecidableEq, Repr

/-- `risk_manager.RiskDecision`. -/
structure RiskDecision where
  approved : Bool
  reason : RiskReason
  positionSize : ℚ
deriving DecidableEq, Repr

/-- `wins = [t["pnl"] for t in recent if t["pnl"] > 0]`. -/
def winsOf (recent : List TradeEntry) : List ℚ :=
  (recent.filter fun t => 0 < t.pnl).map TradeEntry.pnl

/-- `losses = [abs(t["pnl"]) for t in recent if t["pnl"] < 0]`. -/
def lossesOf (recent : List TradeEntry) : List ℚ :=
  (recent.filter fun t => t.pnl < 0).map fun t => |t.pnl|

/-- `win_rate = len(wins) / len(recent)`. -/
def winRateOf (recent : List TradeEntry) : ℚ :=
  ((winsOf recent).length : ℚ) / (recent.length : ℚ)

/-- `avg_win = np.mean(wins)`. -/
def avgWinOf (recent : List TradeEntry) : ℚ := listMean (winsOf recent)

/-- `avg_loss = np.mean(losses)`. -/
def avgLossOf (recent : List TradeEntry) : ℚ := listMean (lossesOf recent)

/-- `RiskManager._compute_kelly_fraction` (lines 183–221). -/
def computeKellyFraction (cfg : RiskConfig) (history : List TradeEntry) :
    Option ℚ :=
  let recent := pySliceLast cfg.kellyLookback history
  if recent.length < 10 then none
  else if winsOf recent = [] ∨ lossesOf recent = [] then none
  else if avgWinOf recent ≤ 0 then none
  else
    let kelly :=
      (winRateOf recent * avgWinOf recent -
        (1 - winRateOf recent) * avgLossOf recent) / avgWinOf recent
    let halfKelly := cfg.kellyFraction * kelly
    some (npClip halfKelly 0 (cfg.riskPerTrade * 2))

/-- `RiskManager.compute_position_size` (lines 128–181): ATR base sizing,
Half-Kelly overlay, volatility targeting.  Returns
`(position_size_units, stop_price, take_profit_price)`. -/
def computePositionSize (cfg : RiskConfig) (s : RiskState)
    (price atrValue atrStopMult : ℚ) (realizedVol : Option ℚ) : ℚ × ℚ × ℚ :=
  let riskDollars := s.currentEquity * cfg.riskPerTrade
  let stopDistance := atrValue * atrStopMult
  let stopPrice := price - stopDistance
  let baseUnits : ℚ := if 0 < stopDistance then riskDollars / stopDistance else 0
  let tpPrice := price + stopDistance * 2
  let kellyUnits : ℚ :=
    match computeKellyFraction cfg s.tradeHistory with
    | none => baseUnits
    | some kellyF =>
        let scaled :=
          baseUnits * (if 0 < cfg.riskPerTrade then kellyF / cfg.riskPerTrade else 1)
        let maxFromRisk :=
          if 0 < stopDistance then riskDollars / stopDistance else scaled
        minQ scaled (maxFromRisk * 2)
  let finalUnits : ℚ :=
    match realizedVol with
    | none => kellyUnits
    | some rv =>
        -- `if realized_vol and realized_vol > 0 and self.target_annual_vol > 0`
        if 0 < rv ∧ 0 < cfg.targetAnnualVol then
          kellyUnits * npClip (cfg.targetAnnualVol / rv) (1/4) 2
        else kellyUnits
  (finalUnits, stopPrice, tpPrice)

/-- `RiskManager.reset_daily`. -/
def resetDailyRisk (today : ℤ) (equity : ℚ) (s : RiskState) : RiskState :=
  { s with dailyPnl := 0, dailyStartingEquity := equity,
           lastResetDate := some today }

/-- `RiskManager.check_daily_reset`. -/
def checkDailyReset (today : ℤ) (s : RiskState) : RiskState :=
  if s.lastResetDate ≠ some today then resetDailyRisk today s.currentEquity s
  else s

/-- The check chain of `RiskManager.evaluate_trade` (lines 305–376),
evaluated on the post-daily-reset state: first failure wins; on success,
position size capped at 50% of equity. -/
def evaluateTradeDecision (cfg : RiskConfig) (now : ℚ)
    (price atrValue atrStopMult : ℚ) (spreadBps : Option ℚ)
    (s : RiskState) : RiskDecision :=
  let dailyLossPct : ℚ :=
    if 0 < s.dailyStartingEquity then |s.dailyPnl| / s.dailyStartingEquity else 0
  if s.dailyPnl < 0 ∧ cfg.maxDailyLossPct ≤ dailyLossPct then
    ⟨false, .dailyLossLimit, 0⟩
  else
    let drawdownPct : ℚ :=
      if 0 < s.peakEquity then (s.peakEquity - s.currentEquity) / s.peakEquity
      else 0
    if cfg.maxTotalDrawdownPct ≤ drawdownPct then ⟨false, .maxDrawdown, 0⟩
    else if (cfg.maxOpenPositions : ℤ) ≤ s.openPositions then
      ⟨false, .maxPositions, 0⟩
    else
      let cooldownBlocked : Bool :=
        match s.lastLossTime with
        | none => false
        | some t => decide (now < t + cfg.cooldownMinutes * 60)
      if cooldownBlocked then ⟨false, .cooldownActive, 0⟩
      else
        let atrPct : ℚ := if 0 < price then atrValue / price else 0
        if atrPct < cfg.minAtrPctFilter then ⟨false, .atrTooLow, 0⟩
        else
          let spreadBlocked : Bool :=
            match spreadBps with
            | none => false
            | some b => decide (cfg.spreadGuardBps < b)
          if spreadBlocked then ⟨false, .spreadTooWide, 0⟩
          else
            let sized := computePositionSize cfg s price atrValue atrStopMult none
            if sized.1 ≤ 0 then ⟨false, .zeroSize, 0⟩
            else
              let maxUnits : ℚ :=
                if 0 < price then s.currentEquity * (1/2) / price else 0
              ⟨true, .approvedTrade, minQ sized.1 maxUnits⟩

/-- `RiskManager.evaluate_trade` (lines 282–376): the daily-reset check is
the only state mutation; the decision is computed on the reset state.  The
wall clock (`now`, seconds) and the UTC date (`today`) are explicit
inputs. -/
def evaluateTrade (cfg : RiskConfig) (now : ℚ) (today : ℤ)
    (price atrValue atrStopMult : ℚ) (spreadBps : Option ℚ)
    (s : RiskState) : RiskState × RiskDecision :=
  let s := checkDailyReset today s
  (s, evaluateTradeDecision cfg now price atrValue atrStopMult spreadBps s)

/-- `RiskManager.register_trade_open`. -/
def registerTradeOpen (s : RiskState) : RiskState :=
  { s with openPositions := s.openPositions + 1 }

/-- `RiskManager.register_trade_close` (lines 383–422).  `pnl_pct or (...)`
follows Python truthiness: an explicit `0.0` falls back to the computed
value. -/
def registerTradeClose (cfg : RiskConfig) (now : ℚ) (pnl : ℚ) (symbol : String)
    (pnlPct : Option ℚ) (s : RiskState) : RiskState :=
  let openPositions := maxZ 0 (s.openPositions - 1)
  let dailyPnl := s.dailyPnl + pnl
  let currentEquity := s.currentEquity + pnl
  let fallbackPct : ℚ := if 0 < currentEquity then pnl / currentEquity else 0
  let pct : ℚ :=
    match pnlPct with
    | none => fallbackPct
    | some p => if p = 0 then fallbackPct else p
  let appended := s.tradeHistory ++ [⟨pnl, pct, symbol⟩]
  let tradeHistory :=
    if cfg.kellyLookback * 2 < appended.length then
      pySliceLast cfg.kellyLookback appended
    else appended
  let consecutiveLosses := if 0 ≤ pnl then 0 else s.consecutiveLosses + 1
  let lastLossTime : Option ℚ := if 0 ≤ pnl then none else some now
  let peakEquity :=
    if s.peakEquity < currentEquity then currentEquity else s.peakEquity
  { currentEquity := currentEquity, peakEquity := peakEquity,
    dailyStartingEquity := s.dailyStartingEquity, dailyPnl := dailyPnl,
    openPositions := openPositions, lastLossTime := lastLossTime,
    consecutiveLosses := consecutiveLosses, lastResetDate := s.lastResetDate,
    tradeHistory := tradeHistory }

/-- The state-mutating operations of `RiskManager`, for the C9 invariant. -/
inductive RiskOp
  | updateEquity (equity : ℚ)
  | resetDaily (today : ℤ) (equity : ℚ)
  | evaluate (now : ℚ) (today : ℤ) (price atrValue atrStopMult : ℚ)
      (spreadBps : Option ℚ)
  | tradeOpen
  | tradeClose (now : ℚ) (pnl : ℚ) (symbol : String) (pnlPct : Option ℚ)

/-- One `RiskManager` method call. -/
def stepRisk (cfg : RiskConfig) (s : RiskState) : RiskOp → RiskState
  | .updateEquity e =>
      { s with currentEquity := e,
               peakEquity := if s.peakEquity < e then e else s.peakEquity }
  | .resetDaily today e => resetDailyRisk today e s
  | .evaluate now today price atrValue atrStopMult spreadBps =>
      (evaluateTrade cfg now today price atrValue atrStopMult spreadBps s).1
  | .tradeOpen => registerTradeOpen s
  | .tradeClose now pnl symbol pnlPct =>
      registerTradeClose cfg now pnl symbol pnlPct s

/-- A sequence of `RiskManager` method calls. -/
def applyRiskOps (cfg : RiskConfig) (ops : List RiskOp) (s : RiskState) :
    RiskState :=
  ops.foldl (stepRisk cfg) s

-- ---------------------------------------------------------------------------
-- CircuitBreaker (src/core/circuit_breaker.py)
-- ---------------------------------------------------------------------------

/-- The `breaker_type` strings. -/
inductive BreakerType
  | asset
  | portfolio
  | consecutive
  | flash
deriving DecidableEq, Repr

/-- `circuit_breaker.BreakerTrip` (the formatted `reason` string is not
modelled).  Times are seconds on one rational clock. -/
structure BreakerTrip where
  breakerType : BreakerType
  symbol : Option String
  triggeredAt : ℚ
  expiresAt : ℚ
deriving DecidableEq, Repr

/-- `BreakerTrip.is_active`: `now < expires_at`. -/
def tripIsActive (now : ℚ) (t : BreakerTrip) : Bool := decide (now < t.expiresAt)

/-- Construction-time parameters of `CircuitBreaker.__init__`. -/
structure CBConfig where
  assetDropPct : ℚ
  assetWindowSeconds : ℚ
  portfolioKillPct : ℚ
  consecutiveLossLimit : ℕ
  consecutiveCooldownMinutes : ℚ
  flashCrashPct : ℚ
  flashCrashWindowSeconds : ℚ
deriving DecidableEq, Repr

/-- The defaults of `CircuitBreaker.__init__`. -/
def defaultCBConfig : CBConfig :=
  ⟨15/100, 3600, 10/100, 3, 30, 5/100, 60⟩

/-- Mutable state of a `CircuitBreaker`.  `priceHistory` models the
`defaultdict(list)` of `(timestamp, price)` pairs per symbol. -/
structure CBState where
  priceHistory : String → List (ℚ × ℚ)
  consecutiveLosses : ℕ
  trips : List BreakerTrip
  sodPortfolioValue : Option ℚ

/-- State produced by `CircuitBreaker.__init__`. -/
def freshCB : CBState := ⟨fun _ => [], 0, [], none⟩

/-- `CircuitBreaker.record_price`: append the tick and prune entries older
than 2 hours. -/
def recordPrice (now : ℚ) (symbol : String) (price : ℚ) (s : CBState) :
    CBState :=
  let pruned :=
    (s.priceHistory symbol ++ [(now, price)]).filter fun tp => now - 7200 < tp.1
  { s with priceHistory := fun x => if x = symbol then pruned else s.priceHistory x }

/-- The active-trip scan at the top of `check`: an active trip blocks when it
is portfolio-wide (`symbol is None`) or matches the requested symbol. -/
def tripsBlock (now : ℚ) (symbol : String) (trips : List BreakerTrip) : Bool :=
  trips.any fun t =>
    tripIsActive now t && (t.symbol = none ∨ t.symbol = some symbol)

/-- `CircuitBreaker._trip_asset`: expires one hour after the trip. -/
def tripAsset (now : ℚ) (symbol : String) (s : CBState) : CBState :=
  { s with trips := s.trips ++ [⟨.asset, some symbol, now, now + 3600⟩] }

/-- `CircuitBreaker._trip_portfolio`: portfolio-wide, expires after 24 h. -/
def tripPortfolio (now : ℚ) (s : CBState) : CBState :=
  { s with trips := s.trips ++ [⟨.portfolio, none, now, now + 86400⟩] }

/-- `CircuitBreaker._trip_consecutive`. -/
def tripConsecutive (cfg : CBConfig) (now : ℚ) (s : CBState) : CBState :=
  { s with trips :=
      s.trips ++ [⟨.consecutive, none, now, now + cfg.consecutiveCooldownMinutes * 60⟩] }

/-- `CircuitBreaker._trip_flash`: expires after 15 minutes. -/
def tripFlash (now : ℚ) (symbol : String) (s : CBState) : CBState :=
  { s with trips := s.trips ++ [⟨.flash, some symbol, now, now + 900⟩] }

/-- Prices inside the asset window: `[p for t, p in history if t > cutoff]`
with `cutoff = now - asset_window_seconds`. -/
def windowPrices (cfg : CBConfig) (now : ℚ) (history : List (ℚ × ℚ)) : List ℚ :=
  (history.filter fun tp => now - cfg.assetWindowSeconds < tp.1).map Prod.snd

/-- `max(window_prices)` over the symbol's recorded history, `none` when the
window is empty.  Used to state the C1 drop hypothesis with the exact high
the source computes. -/
def windowHigh (cfg : CBConfig) (now : ℚ) (symbol : String) (s : CBState) :
    Option ℚ :=
  match windowPrices cfg now (s.priceHistory symbol) with
  | [] => none
  | p :: ps => some (ps.foldl maxQ p)

/-- `CircuitBreaker._check_asset_drop` (lines 194–220).  Returns the state
(possibly with a new asset trip) and the `ok` flag. -/
def checkAssetDrop (cfg : CBConfig) (now : ℚ) (symbol : String)
    (currentPrice : ℚ) (s : CBState) : CBState × Bool :=
  if s.priceHistory symbol = [] then (s, true)
  else
    match windowHigh cfg now symbol s with
    | none => (s, true)
    | some high =>
        if high ≤ 0 then (s, true)
        else if cfg.assetDropPct ≤ (high - currentPrice) / high then
          (tripAsset now symbol s, false)
        else (s, true)

/-- `CircuitBreaker._check_flash_crash` (lines 222–249). -/
def checkFlashCrash (cfg : CBConfig) (now : ℚ) (symbol : String)
    (currentPrice : ℚ) (s : CBState) : CBState × Bool :=
  let history := s.priceHistory symbol
  if history.length < 2 then (s, true)
  else
    let recent :=
      (history.filter fun tp => now - cfg.flashCrashWindowSeconds < tp.1).map
        Prod.snd
    if recent.length < 2 then (s, true)
    else
      match recent with
      | [] => (s, true)
      | earliest :: _ =>
          if earliest ≤ 0 then (s, true)
          else if cfg.flashCrashPct ≤ |currentPrice - earliest| / earliest then
            (tripFlash now symbol s, false)
          else (s, true)

/-- `CircuitBreaker._check_portfolio_kill` (lines 251–267). -/
def checkPortfolioKill (cfg : CBConfig) (now : ℚ) (currentValue sodValue : ℚ)
    (s : CBState) : CBState × Bool :=
  if sodValue ≤ 0 then (s, true)
  else if cfg.portfolioKillPct ≤ (sodValue - currentValue) / sodValue then
    (tripPortfolio now s, false)
  else (s, true)

/-- Python `initial_value or self._sod_portfolio_value`: `0.0` is falsy. -/
def sodOverride (initialValue stored : Option ℚ) : Option ℚ :=
  match initialValue with
  | none => stored
  | some v => if v = 0 then stored else some v

/-- Why `check` blocked, mirroring the source's reason strings as tags. -/
inductive BlockReason
  | activeTrip
  | assetDrop
  | flashCrash
  | portfolioKill
deriving DecidableEq, Repr

/-- Result of `CircuitBreaker.check`: the updated breaker state and the
`(allowed, reason)` pair. -/
structure CheckResult where
  state : CBState
  allowed : Bool
  reason : Option BlockReason

/-- `CircuitBreaker.check` (lines 122–167): record the tick, then active
trips, asset drop, flash crash and portfolio kill switch in order. -/
def cbCheck (cfg : CBConfig) (now : ℚ) (symbol : String) (currentPrice : ℚ)
    (portfolioValue initialValue : Option ℚ) (s : CBState) : CheckResult :=
  let s := recordPrice now symbol currentPrice s
  if tripsBlock now symbol s.trips then ⟨s, false, some .activeTrip⟩
  else
    let assetChecked := checkAssetDrop cfg now symbol currentPrice s
    if !assetChecked.2 then ⟨assetChecked.1, false, some .assetDrop⟩
    else
      let flashChecked := checkFlashCrash cfg now symbol currentPrice assetChecked.1
      if !flashChecked.2 then ⟨flashChecked.1, false, some .flashCrash⟩
      else
        match sodOverride initialValue flashChecked.1.sodPortfolioValue,
              portfolioValue with
        | some sod, some pv =>
            if sod = 0 then ⟨flashChecked.1, true, none⟩
            else
              let killChecked := checkPortfolioKill cfg now pv sod flashChecked.1
              if !killChecked.2 then ⟨killChecked.1, false, some .portfolioKill⟩
              else ⟨killChecked.1, true, none⟩
        | _, _ => ⟨flashChecked.1, true, none⟩

/-- `CircuitBreaker.register_trade_result`. -/
def registerTradeResult (cfg : CBConfig) (now : ℚ) (pnl : ℚ) (s : CBState) :
    CBState :=
  if pnl < 0 then
    let losses := s.consecutiveLosses + 1
    let s := { s with consecutiveLosses := losses }
    if cfg.consecutiveLossLimit ≤ losses then tripConsecutive cfg now s else s
  else { s with consecutiveLosses := 0 }

/-- `CircuitBreaker.reset_daily`: store the start-of-day value and purge
expired trips. -/
def cbResetDaily (now : ℚ) (portfolioValue : ℚ) (s : CBState) : CBState :=
  { s with sodPortfolioValue := some portfolioValue,
           trips := s.trips.filter (tripIsActive now) }

/-- The public operations of `CircuitBreaker`, for the C1 temporal claim. -/
inductive CBOp
  | check (symbol : String) (price : ℚ) (portfolioValue initialValue : Option ℚ)
  | recordTick (symbol : String) (price : ℚ)
  | tradeResult (pnl : ℚ)
  | resetDaily (portfolioValue : ℚ)

/-- One `CircuitBreaker` method call at wall-clock time `now`. -/
def stepCB (cfg : CBConfig) (now : ℚ) (s : CBState) : CBOp → CBState
  | .check symbol price pv iv => (cbCheck cfg now symbol price pv iv s).state
  | .recordTick symbol price => recordPrice now symbol price s
  | .tradeResult pnl => registerTradeResult cfg now pnl s
  | .resetDaily pv => cbResetDaily now pv s

/-- A timed sequence of `CircuitBreaker` method calls. -/
def applyCBOps (cfg : CBConfig) (ops : List (ℚ × CBOp)) (s : CBState) : CBState :=
  ops.foldl (fun s p => stepCB cfg p.1 s p.2) s

-- ---------------------------------------------------------------------------
-- Portfolio (src/core/portfolio.py)
-- ---------------------------------------------------------------------------

/-- Position side (the strings "LONG" / "SHORT"). -/
inductive PosSide
  | LONG
  | SHORT
deriving DecidableEq, Repr

/-- `portfolio.Position` (`entry_time` is not modelled). -/
structure Position where
  id : ℕ
  symbol : String
  side : PosSide
  size : ℚ
  entryPrice : ℚ
  stop : Option ℚ
  tp : Option ℚ
  strategy : Option String
deriving DecidableEq, Repr

/-- One `Portfolio.trade_history` record. -/
structure ClosedTrade where
  positionId : ℕ
  symbol : String
  side : PosSide
  entryPrice : ℚ
  exitPrice : ℚ
  size : ℚ
  pnl : ℚ
  fees : ℚ
deriving DecidableEq, Repr

/-- `Portfolio` state: cash, configuration, insertion-ordered positions map,
position-id counter, trade history. -/
structure PortfolioState where
  cash : ℚ
  initialCash : ℚ
  commission : ℚ
  slippageBps : ℚ
  positions : List (String × Position)
  nextPositionId : ℕ
  tradeHistory : List ClosedTrade
deriving DecidableEq, Repr

/-- The `ValueError`s `Portfolio` raises, as tags for the formatted
messages. -/
inductive PortfolioError
  | positionExists
  | insufficientCash
  | noPosition
  | wrongSide
deriving DecidableEq, Repr

/-- `Portfolio._apply_slippage`: buys pay more, sells receive less. -/
def applySlippage (slippageBps price : ℚ) (isBuy : Bool) : ℚ :=
  let slippagePct := slippageBps / 10000
  if isBuy then price * (1 + slippagePct) else price * (1 - slippagePct)

/-- `Portfolio.get_equity`: cash plus unrealized PnL, marking each position
to `current_prices.get(symbol, pos.entry_price)`. -/
def getEquity (s : PortfolioState) (currentPrices : String → Option ℚ) : ℚ :=
  s.positions.foldl
    (fun eq p =>
      let price := (currentPrices p.1).getD p.2.entryPrice
      if p.2.side = .LONG then eq + p.2.size * (price - p.2.entryPrice)
      else eq + p.2.size * (p.2.entryPrice - price))
    s.cash

/-- `Portfolio.open_long` (lines 115–174).  Returns the state (unchanged on
error, since both checks precede every mutation in the source) and either
the raised error or `(fill_price, fees, slippage)`. -/
def openLong (s : PortfolioState) (symbol : String) (size price : ℚ)
    (stop tp : Option ℚ) (strategy : Option String) :
    PortfolioState × Except PortfolioError (ℚ × ℚ × ℚ) :=
  if (s.positions.lookup symbol).isSome then (s, .error .positionExists)
  else
    let fillPrice := applySlippage s.slippageBps price true
    let slippage := fillPrice - price
    let notional := size * fillPrice
    let fees := notional * s.commission
    let totalCost := notional + fees
    if s.cash < totalCost then (s, .error .insufficientCash)
    else
      ({ s with cash := s.cash - totalCost,
                positions := s.positions ++
                  [(symbol, ⟨s.nextPositionId, symbol, .LONG, size, fillPrice,
                             stop, tp, strategy⟩)],
                nextPositionId := s.nextPositionId + 1 },
       .ok (fillPrice, fees, slippage))

/-- `Portfolio.open_short` (lines 230–285): sell to open, deduct only the
fees. -/
def openShort (s : PortfolioState) (symbol : String) (size price : ℚ)
    (stop tp : Option ℚ) (strategy : Option String) :
    PortfolioState × Except PortfolioError (ℚ × ℚ × ℚ) :=
  if (s.positions.lookup symbol).isSome then (s, .error .positionExists)
  else
    let fillPrice := applySlippage s.slippageBps price false
    let slippage := price - fillPrice
    let notional := size * fillPrice
    let fees := notional * s.commission
    ({ s with cash := s.cash - fees,
              positions := s.positions ++
                [(symbol, ⟨s.nextPositionId, symbol, .SHORT, size, fillPrice,
                           stop, tp, strategy⟩)],
              nextPositionId := s.nextPositionId + 1 },
     .ok (fillPrice, fees, slippage))

/-- Delete a key from the positions map (`del self.positions[symbol]`). -/
def removePosition (symbol : String) (ps : List (String × Position)) :
    List (String × Position) :=
  ps.filter fun p => p.1 ≠ symbol

/-- `Portfolio.close_long` (lines 176–228).  Returns the state and either
the raised error or `(fill_price, pnl, fees, slippage)`. -/
def closeLong (s : PortfolioState) (symbol : String) (price : ℚ) :
    PortfolioState × Except PortfolioError (ℚ × ℚ × ℚ × ℚ) :=
  match s.positions.lookup symbol with
  | none => (s, .error .noPosition)
  | some pos =>
      if pos.side ≠ .LONG then (s, .error .wrongSide)
      else
        let fillPrice := applySlippage s.slippageBps price false
        let slippage := price - fillPrice
        let notional := pos.size * fillPrice
        let fees := notional * s.commission
        let proceeds := notional - fees
        let pnl := proceeds - pos.size * pos.entryPrice
        ({ s with cash := s.cash + proceeds,
                  positions := removePosition symbol s.positions,
                  tradeHistory := s.tradeHistory ++
                    [⟨pos.id, symbol, .LONG, pos.entryPrice, fillPrice,
                      pos.size, pnl, fees⟩] },
         .ok (fillPrice, pnl, fees, slippage))

/-- `Portfolio.close_short` (lines 287–339). -/
def closeShort (s : PortfolioState) (symbol : String) (price : ℚ) :
    PortfolioState × Except PortfolioError (ℚ × ℚ × ℚ × ℚ) :=
  match s.positions.lookup symbol with
  | none => (s, .error .noPosition)
  | some pos =>
      if pos.side ≠ .SHORT then (s, .error .wrongSide)
      else
        let fillPrice := applySlippage s.slippageBps price true
        let slippage := fillPrice - price
        let notional := pos.size * fillPrice
        let fees := notional * s.commission
        let pnl := pos.size * pos.entryPrice - (notional + fees)
        ({ s with cash := s.cash + pnl,
                  positions := removePosition symbol s.positions,
                  tradeHistory := s.tradeHistory ++
                    [⟨pos.id, symbol, .SHORT, pos.entryPrice, fillPrice,
                      pos.size, pnl, fees⟩] },
         .ok (fillPrice, pnl, fees, slippage))

-- ---------------------------------------------------------------------------
-- Executor (src/core/execution.py), paper mode
-- ---------------------------------------------------------------------------

/-- `execution.OrderStatus`. -/
inductive OrderStatus
  | pending
  | submitted
  | filled
  | partialFill
  | cancelled
  | orphaned
  | error
deriving DecidableEq, Repr

/-- `execution.OrderSide`. -/
inductive OrderSide
  | buy
  | sell
deriving DecidableEq, Repr

/-- `execution.OrderType`. -/
inductive OrderType
  | limit
  | market
deriving DecidableEq, Repr

/-- `execution.ManagedOrder` (timestamps, fees and the error message are
not modelled; no claim touches them). -/
structure ManagedOrder where
  clientOrderId : String
  symbol : String
  side : OrderSide
  orderType : OrderType
  qty : ℚ
  price : Option ℚ
  strategy : String
  status : OrderStatus
  exchangeOrderId : Option String
  filledQty : ℚ
  avgFillPrice : ℚ
  chaseAttempts : ℕ
deriving DecidableEq, Repr

/-- `ManagedOrder.is_terminal` (lines 90–96): FILLED, CANCELLED or ERROR. -/
def ManagedOrder.isTerminal (o : ManagedOrder) : Bool :=
  decide (o.status = .filled ∨ o.status = .cancelled ∨ o.status = .error)

/-- Executor state in paper mode: the session order table keyed by
`client_order_id`, the ledger, and the optional risk manager and circuit
breaker collaborators (`if self.risk_manager:` / `if self.circuit_breaker:`
truthiness). -/
structure ExecState where
  orders : List (String × ManagedOrder)
  portfolio : Option PortfolioState
  riskState : Option RiskState
  cbState : Option CBState

/-- The `"action"` field of the dict `execute_signal` returns (`None` is
modelled by `Option.none` around this type). -/
inductive ExecResult
  | rejected
  | filledResult (clientOrderId : String)
  | closedResult (pnl : ℚ)
  | errorResult
deriving DecidableEq, Repr

/-- `Executor._execute_paper_open` (lines 304–367): delegate to the ledger,
mark the order FILLED on success or ERROR on a `ValueError`. -/
def executePaperOpen (order : ManagedOrder)
    (stop tp : Option ℚ) (st : ExecState) : ExecState × Option ExecResult :=
  match st.portfolio with
  | none =>
      let failed := { order with status := OrderStatus.error }
      ({ st with orders := st.orders ++ [(order.clientOrderId, failed)] },
       some .errorResult)
  | some pf =>
      let opened :=
        if order.side = .buy then
          openLong pf order.symbol order.qty (order.price.getD 0) stop tp
            (some order.strategy)
        else
          openShort pf order.symbol order.qty (order.price.getD 0) stop tp
            (some order.strategy)
      match opened.2 with
      | .ok fill =>
          let filledOrder :=
            { order with status := OrderStatus.filled, filledQty := order.qty,
                         avgFillPrice := fill.1 }
          ({ st with
              orders := st.orders ++ [(order.clientOrderId, filledOrder)],
              portfolio := some opened.1,
              riskState := st.riskState.map registerTradeOpen },
           some (.filledResult order.clientOrderId))
      | .error _ =>
          let failedOrder := { order with status := OrderStatus.error }
          ({ st with
              orders := st.orders ++ [(order.clientOrderId, failedOrder)],
              portfolio := some opened.1 },
           some .errorResult)

/-- The `portfolio_value` passed to the breaker by `_execute_open`:
`self.portfolio.get_equity({symbol: price})` when a ledger is present. -/
def markedEquity (symbol : String) (price : ℚ) (pf : Option PortfolioState) :
    Option ℚ :=
  pf.map fun p => getEquity p fun x => if x = symbol then some price else none

/-- `Executor._execute_open` (lines 243–302) in paper mode: circuit-breaker
check, then risk evaluation (`if self.risk_manager and atr:`, so a missing
or zero ATR falls back to the nominal 0.001 size), then order creation.
The generated `client_order_id` is an explicit input (it is produced from
`uuid4` in the source). -/
def executeOpen (cbCfg : CBConfig) (riskCfg : RiskConfig) (now : ℚ)
    (today : ℤ) (clientId : String) (symbol : String) (side : OrderSide)
    (price : ℚ) (strategyName : String) (stop tp atr : Option ℚ)
    (st : ExecState) : ExecState × Option ExecResult :=
  -- 1. circuit breaker
  let afterCB : ExecState × Bool :=
    match st.cbState with
    | none => (st, true)
    | some cb =>
        let res := cbCheck cbCfg now symbol price
          (markedEquity symbol price st.portfolio) none cb
        ({ st with cbState := some res.state }, res.allowed)
  if !afterCB.2 then (afterCB.1, some .rejected)
  else
    let st := afterCB.1
    -- 2. risk manager (`if self.risk_manager and atr:`)
    let afterRisk : ExecState × Bool × ℚ :=
      match st.riskState, atr with
      | some rs, some a =>
          if a = 0 then (st, true, 1/1000)
          else
            let evaluated := evaluateTrade riskCfg now today price a (3/2) none rs
            ({ st with riskState := some evaluated.1 },
             evaluated.2.approved, evaluated.2.positionSize)
      | _, _ => (st, true, 1/1000)
    if !afterRisk.2.1 then (afterRisk.1, some .rejected)
    else
      let st := afterRisk.1
      -- 3. create the managed order (paper mode ⇒ MARKET type)
      let order : ManagedOrder :=
        ⟨clientId, symbol, side, .market, afterRisk.2.2, some price,
         strategyName, .pending, none, 0, 0, 0⟩
      -- 4. execute via the ledger
      executePaperOpen order stop tp st

/-- `Executor._execute_paper_close` (lines 473–520): close the tracked
position, propagate realized PnL into the risk manager and the circuit
breaker. -/
def executePaperClose (cbCfg : CBConfig) (riskCfg : RiskConfig) (now : ℚ)
    (symbol : String) (price : ℚ) (st : ExecState) :
    ExecState × Option ExecResult :=
  match st.portfolio with
  | none => (st, none)
  | some pf =>
      match pf.positions.lookup symbol with
      | none => (st, none)
      | some pos =>
          let closed :=
            if pos.side = .LONG then closeLong pf symbol price
            else closeShort pf symbol price
          match closed.2 with
          | .ok res =>
              let pnl := res.2.1
              ({ st with
                  portfolio := some closed.1,
                  riskState :=
                    st.riskState.map (registerTradeClose riskCfg now pnl "UNKNOWN" none),
                  cbState := st.cbState.map (registerTradeResult cbCfg now pnl) },
               some (.closedResult pnl))
          | .error _ => ({ st with portfolio := some closed.1 }, some .errorResult)

/-- `Executor.execute_signal` (lines 182–237) in paper mode: HOLD is a
no-op returning `None`; OPEN routes to `executeOpen`; CLOSE routes to
`executePaperClose`. -/
def executeSignal (cbCfg : CBConfig) (riskCfg : RiskConfig) (now : ℚ)
    (today : ℤ) (clientId : String) (symbol : String)
    (action : Action) (stop tp atr : Option ℚ)
    (currentPrice : ℚ) (strategyName : String) (st : ExecState) :
    ExecState × Option ExecResult :=
  match action with
  | .HOLD => (st, none)
  | .OPEN_LONG =>
      executeOpen cbCfg riskCfg now today clientId symbol .buy currentPrice
        strategyName stop tp atr st
  | .OPEN_SHORT =>
      executeOpen cbCfg riskCfg now today clientId symbol .sell currentPrice
        strategyName stop tp atr st
  | .CLOSE_LONG => executePaperClose cbCfg riskCfg now symbol currentPrice st
  | .CLOSE_SHORT => executePaperClose cbCfg riskCfg now symbol currentPrice st

/-- The `pending` count of `Executor.get_status` (lines 697–710): orders
whose status is not terminal. -/
def pendingCount (orders : List (String × ManagedOrder)) : ℕ :=
  (orders.filter fun p => !p.2.isTerminal).length

-- ---------------------------------------------------------------------------
-- Hurst exponent (src/core/regime_detector.py, compute_hurst)
-- ---------------------------------------------------------------------------

/-- `np.cumsum`: running partial sums. -/
def cumsum (l : List ℚ) : List ℚ := (l.scanl (· + ·) 0).tail

/-- Maximum of a list, `0` on the empty list (callers guard
non-emptiness). -/
def listMax (l : List ℚ) : ℚ :=
  match l with
  | [] => 0
  | x :: xs => xs.foldl maxQ x

/-- Minimum of a list, `0` on the empty list. -/
def listMin (l : List ℚ) : ℚ :=
  match l with
  | [] => 0
  | x :: xs => xs.foldl minQ x

/-- `np.diff(np.log(ts))`.  The real-valued `np.log` is an explicit
parameter: the claims about `compute_hurst` hold for every choice of it. -/
def logReturns (log : ℚ → ℚ) (ts : List ℚ) : List ℚ :=
  List.zipWith (fun prev next => log next - log prev) ts ts.tail

/-- `range(10, max_k + 1, 2)`. -/
def chunkSizes (maxK : ℕ) : List ℕ :=
  if maxK < 10 then [] else List.range' 10 ((maxK - 10) / 2 + 1) 2

/-- The rescaled range `R/S` of one chunk, `none` when the sample standard
deviation is `≤ 1e-12`.  `sqrtP` models the real square root inside
`np.std(chunk, ddof=1)`; it is applied to the sample variance. -/
def chunkRS (sqrtP : ℚ → ℚ) (chunk : List ℚ) : Option ℚ :=
  let meanChunk := listMean chunk
  let deviate := cumsum (chunk.map fun x => x - meanChunk)
  let r := listMax deviate - listMin deviate
  let sampleVar :=
    (chunk.map fun x => (x - meanChunk) ^ 2).sum / ((chunk.length : ℚ) - 1)
  let s := sqrtP sampleVar
  if 1 / 10 ^ 12 < s then some (r / s) else none

/-- The inner loop of `compute_hurst` for one chunk size: mean `R/S` over
the non-overlapping sub-chunks, `none` when every sub-chunk was skipped. -/
def rsForSize (sqrtP : ℚ → ℚ) (returns : List ℚ) (size : ℕ) : Option ℚ :=
  let nChunks := returns.length / size
  if nChunks < 1 then none
  else
    let rsChunk :=
      (List.range nChunks).filterMap fun i =>
        chunkRS sqrtP ((returns.drop (i * size)).take size)
    if rsChunk = [] then none else some (listMean rsChunk)

/-- The `(sizes, rs_values)` pairs accumulated by `compute_hurst`. -/
def rsPoints (sqrtP : ℚ → ℚ) (returns : List ℚ) (maxK : ℕ) : List (ℕ × ℚ) :=
  (chunkSizes maxK).filterMap fun size =>
    (rsForSize sqrtP returns size).map fun rs => (size, rs)

/-- Slope of `np.polyfit(xs, ys, 1)`; `none` models the
`LinAlgError`/`ValueError` path (singular normal equations). -/
def polyfitSlope (xs ys : List ℚ) : Option ℚ :=
  let n : ℚ := (xs.length : ℚ)
  let sx := xs.sum
  let sy := ys.sum
  let sxy := (List.zipWith (· * ·) xs ys).sum
  let sxx := (xs.map fun x => x ^ 2).sum
  let denom := n * sxx - sx * sx
  if denom = 0 then none else some ((n * sxy - sx * sy) / denom)

/-- `compute_hurst` (src/core/regime_detector.py, lines 84–147).  The input
series is a list of optional values (`NaN` = `none`, removed by
`dropna`); `window` slices as Python `values[-window:]` does (`-0:` keeps
everything).  `log` and `sqrtP` stand for the real `np.log` and the square
root inside `np.std`. -/
def computeHurst (log sqrtP : ℚ → ℚ) (series : List (Option ℚ))
    (window : ℕ) : ℚ :=
  let ts := pySliceLast window (series.filterMap id)
  if ts.length < 20 then 1/2
  else
    let returns := logReturns log ts
    if returns.length < 10 then 1/2
    else
      let maxK := min (returns.length / 2) 50
      let points := rsPoints sqrtP returns maxK
      if points.length < 3 then 1/2
      else
        let logSizes := points.map fun p => log ((p.1 : ℚ))
        let logRs := points.map fun p => log p.2
        match polyfitSlope logSizes logRs with
        | none => 1/2
        | some hurst => npClip hurst 0 1

-- ---------------------------------------------------------------------------
-- Concrete sample data for witnesses and counterexamples
-- ---------------------------------------------------------------------------

/-- The configuration of the spec's end-to-end sizing scenario:
`risk_per_trade = 0.01`, all other parameters at the `__init__`
defaults. -/
def scenarioRiskConfig : RiskConfig :=
  ⟨10000, 1/100, 2, 2/100, 10/100, 240, 3/1000, 10, 50, 1/2, 15/100, 80/100⟩

/-- A freshly constructed `RiskManager` in the scenario configuration
(equity $10,000, no trade history). -/
def scenarioRiskState : RiskState := freshRisk scenarioRiskConfig

/-- A 10-trade history with five $10 winners and five $5 losers. -/
def kellySample : List TradeEntry :=
  [⟨10, 0, "BTC/USDT"⟩, ⟨-5, 0, "BTC/USDT"⟩, ⟨10, 0, "BTC/USDT"⟩,
   ⟨-5, 0, "BTC/USDT"⟩, ⟨10, 0, "BTC/USDT"⟩, ⟨-5, 0, "BTC/USDT"⟩,
   ⟨10, 0, "BTC/USDT"⟩, ⟨-5, 0, "BTC/USDT"⟩, ⟨10, 0, "BTC/USDT"⟩,
   ⟨-5, 0, "BTC/USDT"⟩]

/-- A `ManagedOrder` that has been orphaned by reconciliation. -/
def orphanedOrder : ManagedOrder :=
  ⟨"HOT_TREND_BTCUSDT_20260217T1557_a1b2c3d4", "BTC/USDT", .buy, .limit,
   1/100, some 50000, "trend_ema", .orphaned, some "X-1", 0, 0, 0⟩

/-- A fresh paper portfolio: $10,000 cash, 0.05% commission, 2 bps
slippage (the `Portfolio.__init__` defaults). -/
def freshPortfolio : PortfolioState :=
  ⟨10000, 10000, 5/10000, 2, [], 1, []⟩

/-- Full-affinity regime weights for three trend strategies. -/
def sampleWeights : List (String × ℚ) :=
  [("trend_ema", 1), ("supertrend", 1), ("turtle", 1)]

/-- A 2-of-3 OpenLong/OpenLong/Hold signal map. -/
def sampleSignals2of3 : List (String × StrategySignal) :=
  [("trend_ema", ⟨.OPEN_LONG, 1⟩), ("supertrend", ⟨.OPEN_LONG, 1⟩),
   ("turtle", ⟨.HOLD, 1⟩)]

/-- The two OpenLong voters produced by `sampleSignals2of3`. -/
def sampleOpenLongVoters : List StrategyVote :=
  [⟨"trend_ema", .OPEN_LONG, 1, 1⟩, ⟨"supertrend", .OPEN_LONG, 1, 1⟩]

/-- A breaker state with an active portfolio-wide trip (tripped at `t = 0`,
expiring at `t = 86400`). -/
def trippedCB : CBState :=
  ⟨fun _ => [], 0, [⟨.portfolio, none, 0, 86400⟩], none⟩

/-- An executor state whose circuit breaker is tripped portfolio-wide. -/
def trippedExecState : ExecState :=
  ⟨[], some freshPortfolio, none, some trippedCB⟩

/-- Regime weights for the conflict sample: the CloseLong voter carries
zero affinity weight. -/
def sampleConflictWeights : List (String × ℚ) :=
  [("trend_ema", 1), ("supertrend", 1), ("turtle", 0)]

/-- A conflicting signal map: two OpenLong voters (buy total 2) against one
zero-weighted CloseLong voter (sell total 0). -/
def sampleConflictSignals : List (String × StrategySignal) :=
  [("trend_ema", ⟨.OPEN_LONG, 1⟩), ("supertrend", ⟨.OPEN_LONG, 1⟩),
   ("turtle", ⟨.CLOSE_LONG, 1⟩)]

-- ---------------------------------------------------------------------------
-- Theorems
-- ---------------------------------------------------------------------------

/-- C10: `Portfolio.open_long` raises exactly when a position already exists
for the symbol or when the slippage-adjusted notional plus commission
exceeds available cash, and whenever it raises the portfolio state is
unchanged. -/
theorem openLong_error_iff (s : PortfolioState) (symbol : String)
    (size price : ℚ) (stop tp : Option ℚ) (strategy : Option String) :
    ((∃ e, (openLong s symbol size price stop tp strategy).2 = Except.error e) ↔
      ((s.positions.lookup symbol).isSome = true ∨
        s.cash < size * (price * (1 + s.slippageBps / 10000)) +
          size * (price * (1 + s.slippageBps / 10000)) * s.commission)) ∧
    (∀ e, (openLong s symbol size price stop tp strategy).2 = Except.error e →
      (openLong s symbol size price stop tp strategy).1 = s) := by
  simp only [openLong, applySlippage, if_true]
  by_cases h1 : (s.positions.lookup symbol).isSome = true
  · simp [h1]
  · by_cases h2 : s.cash < size * (price * (1 + s.slippageBps / 10000)) +
        size * (price * (1 + s.slippageBps / 10000)) * s.commission
    · simp [h1, h2]
    · simp [h1, h2]

/-- Closed instance of C10: opening 1 BTC at $50,000 on a fresh $10,000
portfolio raises for lack of cash and leaves the portfolio unchanged. -/
theorem openLong_error_iff_witness :
    (∃ e, (openLong freshPortfolio "BTC/USDT" 1 50000 none none none).2 =
      Except.error e) ∧
    (openLong freshPortfolio "BTC/USDT" 1 50000 none none none).1 =
      freshPortfolio := by
  have h := openLong_error_iff freshPortfolio "BTC/USDT" 1 50000 none none none
  have herr := h.1.mpr (Or.inr (by norm_num [freshPortfolio]))
  obtain ⟨e, he⟩ := herr
  exact ⟨⟨e, he⟩, h.2 e he⟩

/-- C7 counterexample: an Orphaned order is NOT terminal in the code
(`is_terminal` names only FILLED, CANCELLED and ERROR), and it IS counted
among the pending, non-terminal orders of `Executor.get_status`. -/
theorem orphaned_not_terminal_counterexample :
    orphanedOrder.status = OrderStatus.orphaned ∧
    orphanedOrder.isTerminal = false ∧
    pendingCount [(orphanedOrder.clientOrderId, orphanedOrder)] = 1 := by
  decide

/-- C7 (amended): `ManagedOrder.is_terminal` is true precisely on the three
statuses Filled, Cancelled and Error; Pending, Submitted, Partial and
Orphaned are all non-terminal (so an Orphaned order is counted among
pending orders in the executor's status summary). -/
theorem isTerminal_iff (o : ManagedOrder) :
    (o.isTerminal = true ↔
      (o.status = OrderStatus.filled ∨ o.status = OrderStatus.cancelled ∨
        o.status = OrderStatus.error)) ∧
    (o.status = OrderStatus.orphaned → o.isTerminal = false) := by
  constructor
  · simp [ManagedOrder.isTerminal]
  · intro h
    simp [ManagedOrder.isTerminal, h]

/-- Closed instance of C7 (amended), at the orphaned sample order. -/
theorem isTerminal_iff_witness : orphanedOrder.isTerminal = false :=
  (isTerminal_iff orphanedOrder).2 (by rfl)

theorem winsOf_eq_nil_iff (recent : List TradeEntry) :
    winsOf recent = [] ↔ ∀ t ∈ recent, t.pnl ≤ 0 := by
  simp [winsOf, List.filter_eq_nil_iff]

theorem lossesOf_eq_nil_iff (recent : List TradeEntry) :
    lossesOf recent = [] ↔ ∀ t ∈ recent, 0 ≤ t.pnl := by
  simp [lossesOf, List.filter_eq_nil_iff]

theorem avgWinOf_pos (recent : List TradeEntry) (h : winsOf recent ≠ []) :
    0 < avgWinOf recent := by
  have hpos : ∀ x ∈ winsOf recent, (0 : ℚ) < x := by
    intro x hx
    simp only [winsOf, List.mem_map, List.mem_filter] at hx
    obtain ⟨t, ⟨_, ht⟩, rfl⟩ := hx
    exact of_decide_eq_true ht
  have hsum : 0 < (winsOf recent).sum := List.sum_pos _ hpos h
  have hlen : 0 < ((winsOf recent).length : ℚ) := by
    have := List.length_pos.mpr h
    exact_mod_cast this
  exact div_pos hsum hlen

/-- C5: `_compute_kelly_fraction` returns `None` exactly when the last
`kelly_lookback` trades number fewer than 10, or contain no winner, or no
loser; in every other case it returns
`kelly_fraction × ((win_rate × avg_win − (1 − win_rate) × avg_loss) / avg_win)`
clamped to `[0, 2 × risk_per_trade]`. -/
theorem kelly_fraction_characterization (cfg : RiskConfig)
    (history : List TradeEntry) :
    (computeKellyFraction cfg history = none ↔
      ((pySliceLast cfg.kellyLookback history).length < 10 ∨
        (∀ t ∈ pySliceLast cfg.kellyLookback history, t.pnl ≤ 0) ∨
        (∀ t ∈ pySliceLast cfg.kellyLookback history, 0 ≤ t.pnl))) ∧
    (¬(pySliceLast cfg.kellyLookback history).length < 10 →
      (∃ t ∈ pySliceLast cfg.kellyLookback history, 0 < t.pnl) →
      (∃ t ∈ pySliceLast cfg.kellyLookback history, t.pnl < 0) →
      computeKellyFraction cfg history =
        some (npClip
          (cfg.kellyFraction *
            ((winRateOf (pySliceLast cfg.kellyLookback history) *
                avgWinOf (pySliceLast cfg.kellyLookback history) -
              (1 - winRateOf (pySliceLast cfg.kellyLookback history)) *
                avgLossOf (pySliceLast cfg.kellyLookback history)) /
              avgWinOf (pySliceLast cfg.kellyLookback history)))
          0 (cfg.riskPerTrade * 2))) := by
  set recent := pySliceLast cfg.kellyLookback history with hrec
  have hwin := winsOf_eq_nil_iff recent
  have hloss := lossesOf_eq_nil_iff recent
  by_cases h10 : recent.length < 10
  · constructor
    · simp [computeKellyFraction, ← hrec, h10]
    · intro hc
      exact absurd h10 hc
  · by_cases hwl : winsOf recent = [] ∨ lossesOf recent = []
    · constructor
      · simp only [computeKellyFraction, ← hrec, if_neg h10, if_pos hwl]
        constructor
        · intro _
          rcases hwl with hw | hl
          · exact Or.inr (Or.inl (hwin.mp hw))
          · exact Or.inr (Or.inr (hloss.mp hl))
        · intro _; trivial
      · intro _ hexw hexl
        exfalso
        rcases hwl with hw | hl
        · obtain ⟨t, ht, htp⟩ := hexw
          exact absurd htp (not_lt.mpr (hwin.mp hw t ht))
        · obtain ⟨t, ht, htp⟩ := hexl
          exact absurd htp (not_lt.mpr (hloss.mp hl t ht))
    · have hwne : winsOf recent ≠ [] := fun h => hwl (Or.inl h)
      have havg : ¬ avgWinOf recent ≤ 0 := not_le.mpr (avgWinOf_pos recent hwne)
      constructor
      · simp only [computeKellyFraction, ← hrec, if_neg h10, if_neg hwl,
          if_neg havg]
        constructor
        · intro h; cases h
        · intro h
          exfalso
          rcases h with h | h | h
          · exact h10 h
          · exact hwl (Or.inl (hwin.mpr h))
          · exact hwl (Or.inr (hloss.mpr h))
      · intro _ _ _
        simp only [computeKellyFraction, ← hrec, if_neg h10, if_neg hwl,
          if_neg havg]

/-- Closed instance of C5: on a 10-trade history with both winners and
losers the Kelly fraction is the clamped formula value, here `1/50`. -/
theorem kelly_fraction_witness :
    computeKellyFraction scenarioRiskConfig kellySample = some (1/50) := by
  have h := (kelly_fraction_characterization scenarioRiskConfig kellySample).2
    (by decide) (by decide) (by decide)
  rw [h]
  norm_num [npClip, minQ, maxQ, winRateOf, avgWinOf, avgLossOf, winsOf,
    lossesOf, listMean, pySliceLast, kellySample, scenarioRiskConfig,
    List.filter]

theorem logReturns_length (log : ℚ → ℚ) (ts : List ℚ) :
    (logReturns log ts).length = ts.length - 1 := by
  simp only [logReturns, List.length_zipWith, List.length_tail]
  omega

/-- C8: whenever the trailing window yields fewer than 20 usable log-return
observations, `compute_hurst` returns exactly `0.5` — via the
fewer-than-20-bars early exit, or via the fewer-than-3-valid-chunk-sizes
fallback when exactly 20 bars (19 returns) survive. -/
theorem hurst_insufficient_data (log sqrtP : ℚ → ℚ)
    (series : List (Option ℚ)) (window : ℕ)
    (h : (logReturns log (pySliceLast window (series.filterMap id))).length < 20) :
    computeHurst log sqrtP series window = 1/2 := by
  rw [logReturns_length] at h
  by_cases h20 : (pySliceLast window (series.filterMap id)).length < 20
  · simp only [computeHurst, if_pos h20]
  · have hlen : (pySliceLast window (series.filterMap id)).length = 20 := by omega
    have hret : (logReturns log (pySliceLast window (series.filterMap id))).length = 19 := by
      rw [logReturns_length, hlen]
    simp only [computeHurst, if_neg h20, hret]
    norm_num [rsPoints, chunkSizes]

/-- Closed instance of C8: a 20-bar constant series (19 log-returns) falls
back to 0.5. -/
theorem hurst_insufficient_data_witness :
    computeHurst id id (List.replicate 20 (some (1:ℚ))) 100 = 1/2 :=
  hurst_insufficient_data id id (List.replicate 20 (some 1)) 100 (by decide)

/-- C6 counterexample: with equity $10,000, `risk_per_trade = 0.01`,
price $50,000, ATR $500 and `atr_stop_mult = 1.5`, the base unit count is
`100 / 750 = 2/15 ≈ 0.1333`, not `≈ 0.0133` as claimed (it is not even
within `0.1` of the claimed value). -/
theorem scenario_units_counterexample :
    (computePositionSize scenarioRiskConfig scenarioRiskState
        50000 500 (3/2) none).1 = 2/15 ∧
    ¬ |(computePositionSize scenarioRiskConfig scenarioRiskState
        50000 500 (3/2) none).1 - 133/10000| ≤ 1/10 := by
  have hu : (computePositionSize scenarioRiskConfig scenarioRiskState
      50000 500 (3/2) none).1 = 2/15 := by
    norm_num [computePositionSize, computeKellyFraction, scenarioRiskState,
      scenarioRiskConfig, freshRisk, pySliceLast]
  refine ⟨hu, ?_⟩
  rw [hu]
  rw [abs_of_pos (by norm_num)]
  norm_num

/-- C6 (amended): under the scenario configuration,
`compute_position_size` returns stop $49,250, take-profit $51,500 and base
units `2/15 ≈ 0.1333` (`risk_dollars / stop_distance = 100 / 750`), and
`evaluate_trade` rejects whenever `open_positions ≥ max_open_positions`. -/
theorem scenario_sizing_amended (now : ℚ) (today : ℤ) (n : ℤ) (hn : 2 ≤ n) :
    computePositionSize scenarioRiskConfig scenarioRiskState 50000 500 (3/2)
      none = (2/15, 49250, 51500) ∧
    (evaluateTrade scenarioRiskConfig now today 50000 500 (3/2) none
      { scenarioRiskState with openPositions := n }).2.approved = false := by
  constructor
  · norm_num [computePositionSize, computeKellyFraction, scenarioRiskState,
      scenarioRiskConfig, freshRisk, pySliceLast, Prod.ext_iff]
  · simp [evaluateTrade, evaluateTradeDecision, checkDailyReset,
      resetDailyRisk, scenarioRiskState, scenarioRiskConfig, freshRisk, hn]
    split <;> rfl

/-- Closed instance of C6 (amended) at `now = 0`, `today = 0`,
`open_positions = 2`. -/
theorem scenario_sizing_witness :
    computePositionSize scenarioRiskConfig scenarioRiskState 50000 500 (3/2)
      none = (2/15, 49250, 51500) ∧
    (evaluateTrade scenarioRiskConfig 0 0 50000 500 (3/2) none
      { scenarioRiskState with openPositions := 2 }).2.approved = false :=
  scenario_sizing_amended 0 0 2 (by norm_num)

theorem evaluateTrade_fst (cfg : RiskConfig) (now : ℚ) (today : ℤ)
    (price atrValue atrStopMult : ℚ) (spreadBps : Option ℚ) (s : RiskState) :
    (evaluateTrade cfg now today price atrValue atrStopMult spreadBps s).1 =
      checkDailyReset today s := rfl

theorem checkDailyReset_openPositions (today : ℤ) (s : RiskState) :
    (checkDailyReset today s).openPositions = s.openPositions := by
  unfold checkDailyReset resetDailyRisk
  split_ifs <;> rfl

theorem stepRisk_openPositions_nonneg (cfg : RiskConfig) (s : RiskState)
    (op : RiskOp) (h : 0 ≤ s.openPositions) :
    0 ≤ (stepRisk cfg s op).openPositions := by
  cases op with
  | updateEquity e => exact h
  | resetDaily today e => exact h
  | evaluate now today price atrValue atrStopMult spreadBps =>
      simpa [stepRisk, evaluateTrade_fst, checkDailyReset_openPositions] using h
  | tradeOpen => simpa [stepRisk, registerTradeOpen] using Int.le_add_one h
  | tradeClose now pnl symbol pnlPct =>
      simp only [stepRisk, registerTradeClose, maxZ]
      split_ifs with hz
      · omega
      · omega

theorem getLast?_drop {α : Type} (l : List α) (n : ℕ) (h : n < l.length) :
    (l.drop n).getLast? = l.getLast? := by
  induction l generalizing n with
  | nil => simp at h
  | cons x xs ih =>
    cases n with
    | zero => rfl
    | succ m =>
      have hm : m < xs.length := by simpa using h
      rw [List.drop_succ_cons, ih m hm]
      cases xs with
      | nil => simp at hm
      | cons y ys => rw [List.getLast?_cons_cons]

/-- C9: from a fresh `RiskManager`, every sequence of operations keeps
`open_positions ≥ 0`; and `register_trade_close` at `open_positions = 0`
leaves the counter at 0 while still adding the pnl to equity and daily pnl
and appending the trade to the (bounded) history. -/
theorem open_positions_invariant :
    (∀ (cfg : RiskConfig) (ops : List RiskOp),
      0 ≤ (applyRiskOps cfg ops (freshRisk cfg)).openPositions) ∧
    (∀ (cfg : RiskConfig) (now : ℚ) (pnl : ℚ) (symbol : String)
      (pnlPct : Option ℚ) (s : RiskState),
      s.openPositions = 0 → 1 ≤ cfg.kellyLookback →
      (registerTradeClose cfg now pnl symbol pnlPct s).openPositions = 0 ∧
      (registerTradeClose cfg now pnl symbol pnlPct s).currentEquity =
        s.currentEquity + pnl ∧
      (registerTradeClose cfg now pnl symbol pnlPct s).dailyPnl =
        s.dailyPnl + pnl ∧
      ∃ e : TradeEntry,
        (registerTradeClose cfg now pnl symbol pnlPct s).tradeHistory.getLast? =
          some e ∧ e.pnl = pnl ∧ e.symbol = symbol) := by
  constructor
  · intro cfg ops
    have key : ∀ (l : List RiskOp) (s : RiskState), 0 ≤ s.openPositions →
        0 ≤ (applyRiskOps cfg l s).openPositions := by
      intro l
      induction l with
      | nil => intro s hs; exact hs
      | cons op rest ih =>
          intro s hs
          exact ih (stepRisk cfg s op) (stepRisk_openPositions_nonneg cfg s op hs)
    exact key ops (freshRisk cfg) (by simp [freshRisk])
  · intro cfg now pnl symbol pnlPct s hzero hlb
    refine ⟨?_, rfl, rfl, ?_⟩
    · simp [registerTradeClose, maxZ, hzero]
    · obtain ⟨e, he, hp, hs⟩ :
        ∃ e : TradeEntry,
          (registerTradeClose cfg now pnl symbol pnlPct s).tradeHistory =
            (if cfg.kellyLookback * 2 < (s.tradeHistory ++ [e]).length then
              pySliceLast cfg.kellyLookback (s.tradeHistory ++ [e])
            else s.tradeHistory ++ [e]) ∧
          e.pnl = pnl ∧ e.symbol = symbol := ⟨_, rfl, rfl, rfl⟩
      refine ⟨e, ?_, hp, hs⟩
      rw [he]
      have hlen : (s.tradeHistory ++ [e]).length = s.tradeHistory.length + 1 := by
        simp
      split_ifs with htrim
      · rw [pySliceLast, if_neg (by omega)]
        rw [getLast?_drop _ _ (by omega), List.getLast?_append_cons]
        rfl
      · rw [List.getLast?_append_cons]
        rfl

/-- Closed instance of C9: a losing close on a fresh manager (zero open
positions) keeps the counter at 0. -/
theorem open_positions_invariant_witness :
    0 ≤ (applyRiskOps scenarioRiskConfig
      [RiskOp.tradeClose 0 (-50) "BTC/USDT" none]
      (freshRisk scenarioRiskConfig)).openPositions ∧
    (registerTradeClose scenarioRiskConfig 0 (-50) "BTC/USDT" none
      (freshRisk scenarioRiskConfig)).openPositions = 0 := by
  have h := open_positions_invariant
  refine ⟨h.1 scenarioRiskConfig _, ?_⟩
  exact (h.2 scenarioRiskConfig 0 (-50) "BTC/USDT" none
    (freshRisk scenarioRiskConfig) rfl (by decide)).1

theorem pickBest_fixed :
    ∀ (l : List (Action × List StrategyVote))
      (st : Option Action × ℚ × List StrategyVote),
      (∀ p ∈ l, totalScore p.2 ≤ st.2.1) →
      (l.foldl (fun best p =>
        if totalScore p.2 > best.2.1 then (some p.1, totalScore p.2, p.2)
        else best) st) = st
  | [], _, _ => rfl
  | hd :: tl, st, h => by
      rw [List.foldl_cons, if_neg (not_lt.mpr (h hd (List.mem_cons_self _ _)))]
      exact pickBest_fixed tl st fun p hp => h p (List.mem_cons_of_mem _ hp)

theorem pickBest_dominates :
    ∀ (l : List (Action × List StrategyVote)) (a : Action)
      (vs : List StrategyVote) (st : Option Action × ℚ × List StrategyVote),
      (a, vs) ∈ l → st.2.1 < totalScore vs →
      (∀ p ∈ l, p ≠ (a, vs) → totalScore p.2 < totalScore vs) →
      (l.foldl (fun best p =>
        if totalScore p.2 > best.2.1 then (some p.1, totalScore p.2, p.2)
        else best) st) = (some a, totalScore vs, vs)
  | [], _, _, _, hmem, _, _ => absurd hmem (List.not_mem_nil _)
  | hd :: tl, a, vs, st, hmem, hgt, hdom => by
      have hdom' : ∀ p ∈ tl, p ≠ (a, vs) → totalScore p.2 < totalScore vs :=
        fun p hp => hdom p (List.mem_cons_of_mem _ hp)
      by_cases hhd : hd = (a, vs)
      · subst hhd
        rw [List.foldl_cons, if_pos hgt]
        apply pickBest_fixed
        intro p hp
        by_cases hp2 : p = (a, vs)
        · subst hp2; exact le_refl _
        · exact le_of_lt (hdom p (List.mem_cons_of_mem _ hp) hp2)
      · have hmem' : (a, vs) ∈ tl := by
          rcases List.mem_cons.mp hmem with h | h
          · exact absurd h.symm hhd
          · exact h
        have hlt : totalScore hd.2 < totalScore vs :=
          hdom hd (List.mem_cons_self _ _) hhd
        rw [List.foldl_cons]
        by_cases hstep : totalScore hd.2 > st.2.1
        · rw [if_pos hstep]
          exact pickBest_dominates tl a vs _ hmem' hlt hdom'
        · rw [if_neg hstep]
          exact pickBest_dominates tl a vs st hmem' hgt hdom'

theorem pickBest_eq (scores : List (Action × List StrategyVote)) (a : Action)
    (vs : List StrategyVote) (hmem : (a, vs) ∈ scores)
    (hpos : 0 < totalScore vs)
    (hdom : ∀ p ∈ scores, p ≠ (a, vs) → totalScore p.2 < totalScore vs) :
    pickBest scores = (some a, totalScore vs, vs) :=
  pickBest_dominates scores a vs (none, 0, []) hmem hpos hdom

theorem insertVote_key_prop (P : Action → Prop) (v : StrategyVote)
    (hv : P v.action) :
    ∀ (acc : List (Action × List StrategyVote)), (∀ p ∈ acc, P p.1) →
      ∀ p ∈ insertVote acc v, P p.1
  | [] => fun _ p hp => by
      simp only [insertVote, List.mem_singleton] at hp
      subst hp; exact hv
  | (a, vs) :: rest => fun hacc p hp => by
      simp only [insertVote] at hp
      by_cases hav : a = v.action
      · rw [if_pos hav] at hp
        rcases List.mem_cons.mp hp with h | h
        · subst h; exact hacc (a, vs) (List.mem_cons_self _ _)
        · exact hacc p (List.mem_cons_of_mem _ h)
      · rw [if_neg hav] at hp
        rcases List.mem_cons.mp hp with h | h
        · subst h; exact hacc (a, vs) (List.mem_cons_self _ _)
        · exact insertVote_key_prop P v hv rest
            (fun q hq => hacc q (List.mem_cons_of_mem _ hq)) p h

theorem actionScores_key_ne_hold (votes : List StrategyVote) :
    ∀ p ∈ actionScores votes, p.1 ≠ Action.HOLD := by
  suffices h : ∀ (l : List StrategyVote) (acc : List (Action × List StrategyVote)),
      (∀ p ∈ acc, p.1 ≠ Action.HOLD) →
      ∀ p ∈ l.foldl
        (fun acc v => if v.action = .HOLD then acc else insertVote acc v) acc,
        p.1 ≠ Action.HOLD by
    exact h votes [] (by simp)
  intro l
  induction l with
  | nil => intro acc hacc; simpa using hacc
  | cons v rest ih =>
      intro acc hacc
      rw [List.foldl_cons]
      by_cases hv : v.action = Action.HOLD
      · rw [if_pos hv]; exact ih acc hacc
      · rw [if_neg hv]
        exact ih _ (insertVote_key_prop (fun a => a ≠ Action.HOLD) v hv acc hacc)

theorem totalScore_pos_ne_nil (vs : List StrategyVote)
    (h : 0 < totalScore vs) : vs ≠ [] := by
  intro hnil
  rw [hnil] at h
  simp [totalScore] at h

theorem finishSignal_action_eq (cfg : EnsembleConfig) (regime : Regime)
    (votes : List StrategyVote) (ba : Option Action) (bv : List StrategyVote)
    (vt : ℕ) :
    (finishSignal cfg regime votes ba bv vt).action =
      if (finishSignal cfg regime votes ba bv vt).consensusMet then ba
      else some Action.HOLD := rfl

/-- C3: on a non-conflicting, not-all-Hold input whose non-Hold action `a`
strictly dominates every other action's total weighted score,
`Ensemble.aggregate` reports `votes_for` = the number of `a`'s voters and
their mean weighted score as confidence, and the final action is `a`
exactly when `votes_for ≥ consensus_threshold` and the mean weighted score
is `≥ min_weighted_confidence`; otherwise the action is HOLD with
`consensus_met = false` while confidence and vote counts are still
reported. -/
theorem ensemble_consensus_rule (cfg : EnsembleConfig) (regime : Regime)
    (w : List (String × ℚ)) (signals : List (String × StrategySignal))
    (a : Action) (vs : List StrategyVote)
    (hmem : (a, vs) ∈ actionScores (buildVotes w signals))
    (hpos : 0 < totalScore vs)
    (hdom : ∀ p ∈ actionScores (buildVotes w signals), p ≠ (a, vs) →
      totalScore p.2 < totalScore vs)
    (hnc : ¬(hasBuy (actionScores (buildVotes w signals)) = true ∧
      hasSell (actionScores (buildVotes w signals)) = true)) :
    (aggregate cfg regime w signals).votesFor = vs.length ∧
    (aggregate cfg regime w signals).confidence =
      totalScore vs / (vs.length : ℚ) ∧
    ((aggregate cfg regime w signals).consensusMet = true ↔
      (cfg.consensusThreshold ≤ vs.length ∧
        cfg.minWeightedConfidence ≤ totalScore vs / (vs.length : ℚ))) ∧
    ((aggregate cfg regime w signals).action = some a ↔
      (cfg.consensusThreshold ≤ vs.length ∧
        cfg.minWeightedConfidence ≤ totalScore vs / (vs.length : ℚ))) ∧
    (¬(cfg.consensusThreshold ≤ vs.length ∧
        cfg.minWeightedConfidence ≤ totalScore vs / (vs.length : ℚ)) →
      (aggregate cfg regime w signals).action = some Action.HOLD ∧
      (aggregate cfg regime w signals).consensusMet = false) := by
  have hscne : actionScores (buildVotes w signals) ≠ [] := by
    intro h; rw [h] at hmem; exact List.not_mem_nil _ hmem
  have hbest := pickBest_eq _ a vs hmem hpos hdom
  have hnh : a ≠ Action.HOLD := actionScores_key_ne_hold _ _ hmem
  have hvs : vs ≠ [] := totalScore_pos_ne_nil vs hpos
  have hlen : vs.length ≠ 0 := by simpa [List.length_eq_zero] using hvs
  have hcond : ¬((hasBuy (actionScores (buildVotes w signals)) &&
      hasSell (actionScores (buildVotes w signals))) = true) := by
    rw [Bool.and_eq_true]; exact hnc
  have hagg : aggregate cfg regime w signals =
      finishSignal cfg regime (buildVotes w signals) (some a) vs
        (votesTotalOf (actionScores (buildVotes w signals))) := by
    simp only [aggregate]
    rw [if_neg hscne, if_neg hcond, hbest]
  have h1 : (aggregate cfg regime w signals).votesFor = vs.length := by
    rw [hagg]; rfl
  have h2 : (aggregate cfg regime w signals).confidence =
      totalScore vs / (vs.length : ℚ) := by
    rw [hagg]
    simp [finishSignal, hlen]
  have h3 : (aggregate cfg regime w signals).consensusMet = true ↔
      (cfg.consensusThreshold ≤ vs.length ∧
        cfg.minWeightedConfidence ≤ totalScore vs / (vs.length : ℚ)) := by
    rw [hagg]
    simp [finishSignal, hlen, Bool.and_eq_true, decide_eq_true_iff, not_lt]
  have hact : (aggregate cfg regime w signals).action =
      if (aggregate cfg regime w signals).consensusMet then some a
      else some Action.HOLD := by
    rw [hagg, finishSignal_action_eq]
  refine ⟨h1, h2, h3, ?_, ?_⟩
  · constructor
    · intro haeq
      apply h3.mp
      cases hmet : (aggregate cfg regime w signals).consensusMet with
      | true => rfl
      | false =>
          rw [hact, hmet] at haeq
          simp only [Bool.false_eq_true, if_false, Option.some.injEq] at haeq
          exact absurd haeq.symm hnh
    · intro hc
      rw [hact, h3.mpr hc]
      simp
  · intro hc
    have hmet : (aggregate cfg regime w signals).consensusMet = false := by
      cases hmet : (aggregate cfg regime w signals).consensusMet with
      | true => exact absurd (h3.mp hmet) hc
      | false => rfl
    refine ⟨?_, hmet⟩
    rw [hact, hmet]
    simp

/-- Closed instance of C3: the 2-of-3 OpenLong/OpenLong/Hold input with
`consensus_threshold = 2` yields action OpenLong with `votes_for = 2`. -/
theorem ensemble_consensus_witness :
    (aggregate ⟨2, 3/10⟩ Regime.TRENDING_STRONG sampleWeights
      sampleSignals2of3).action = some Action.OPEN_LONG ∧
    (aggregate ⟨2, 3/10⟩ Regime.TRENDING_STRONG sampleWeights
      sampleSignals2of3).votesFor = 2 := by
  have h := ensemble_consensus_rule ⟨2, 3/10⟩ Regime.TRENDING_STRONG
    sampleWeights sampleSignals2of3 Action.OPEN_LONG sampleOpenLongVoters
    (by decide) (by norm_num [sampleOpenLongVoters, totalScore, weightedScore])
    (by decide) (by decide)
  constructor
  · apply h.2.2.2.1.mpr
    constructor
    · norm_num [sampleOpenLongVoters]
    · norm_num [sampleOpenLongVoters, totalScore, weightedScore]
  · rw [h.1]; rfl

/-- C4: when both a buy-family (OPEN_LONG) and a sell-family (OPEN_SHORT or
CLOSE_LONG) action received non-Hold votes, the conflict resolves as
follows: buy total > 2 × sell total hands the decision to the OPEN_LONG
voters (so the final action is OPEN_LONG whenever consensus is met); sell
total > 2 × buy total hands it to CLOSE_LONG if present, else OPEN_SHORT;
otherwise the output is HOLD with zero confidence, zero votes and
`consensus_met = false`. -/
theorem ensemble_conflict_resolution (cfg : EnsembleConfig) (regime : Regime)
    (w : List (String × ℚ)) (signals : List (String × StrategySignal))
    (hbuy : hasBuy (actionScores (buildVotes w signals)) = true)
    (hsell : hasSell (actionScores (buildVotes w signals)) = true) :
    (buyScore (actionScores (buildVotes w signals)) >
        sellScore (actionScores (buildVotes w signals)) * 2 →
      aggregate cfg regime w signals =
        finishSignal cfg regime (buildVotes w signals) (some Action.OPEN_LONG)
          (lookupVoters Action.OPEN_LONG (actionScores (buildVotes w signals)))
          (votesTotalOf (actionScores (buildVotes w signals))) ∧
      ((aggregate cfg regime w signals).consensusMet = true →
        (aggregate cfg regime w signals).action = some Action.OPEN_LONG)) ∧
    (¬(buyScore (actionScores (buildVotes w signals)) >
        sellScore (actionScores (buildVotes w signals)) * 2) →
      sellScore (actionScores (buildVotes w signals)) >
        buyScore (actionScores (buildVotes w signals)) * 2 →
      (((actionScores (buildVotes w signals)).lookup Action.CLOSE_LONG).isSome =
          true →
        aggregate cfg regime w signals =
          finishSignal cfg regime (buildVotes w signals)
            (some Action.CLOSE_LONG)
            (lookupVoters Action.CLOSE_LONG
              (actionScores (buildVotes w signals)))
            (votesTotalOf (actionScores (buildVotes w signals)))) ∧
      (((actionScores (buildVotes w signals)).lookup Action.CLOSE_LONG).isSome =
          false →
        aggregate cfg regime w signals =
          finishSignal cfg regime (buildVotes w signals)
            (some Action.OPEN_SHORT)
            (lookupVoters Action.OPEN_SHORT
              (actionScores (buildVotes w signals)))
            (votesTotalOf (actionScores (buildVotes w signals))))) ∧
    (¬(buyScore (actionScores (buildVotes w signals)) >
        sellScore (actionScores (buildVotes w signals)) * 2) →
      ¬(sellScore (actionScores (buildVotes w signals)) >
        buyScore (actionScores (buildVotes w signals)) * 2) →
      aggregate cfg regime w signals =
        ⟨some Action.HOLD, 0, 0, (actionScores (buildVotes w signals)).length,
          false, regime, buildVotes w signals⟩) := by
  have hscne : actionScores (buildVotes w signals) ≠ [] := by
    intro h
    rw [h] at hbuy
    simp [hasBuy] at hbuy
  have hcond : (hasBuy (actionScores (buildVotes w signals)) &&
      hasSell (actionScores (buildVotes w signals))) = true := by
    rw [Bool.and_eq_true]; exact ⟨hbuy, hsell⟩
  refine ⟨?_, ?_, ?_⟩
  · intro hgt
    have hagg : aggregate cfg regime w signals =
        finishSignal cfg regime (buildVotes w signals) (some Action.OPEN_LONG)
          (lookupVoters Action.OPEN_LONG (actionScores (buildVotes w signals)))
          (votesTotalOf (actionScores (buildVotes w signals))) := by
      simp only [aggregate]
      rw [if_neg hscne, if_pos hcond, if_pos hgt]
    refine ⟨hagg, ?_⟩
    intro hmet
    rw [hagg, finishSignal_action_eq]
    rw [hagg] at hmet
    rw [hmet]
    simp
  · intro hngt hsgt
    constructor
    · intro hcl
      simp only [aggregate]
      rw [if_neg hscne, if_pos hcond, if_neg hngt, if_pos hsgt, if_pos hcl]
    · intro hcl
      simp only [aggregate]
      rw [if_neg hscne, if_pos hcond, if_neg hngt, if_pos hsgt]
      rw [hcl]
      simp
  · intro hngt hnsgt
    simp only [aggregate]
    rw [if_neg hscne, if_pos hcond, if_neg hngt, if_neg hnsgt]

/-- Closed instance of C4: OpenLong total 2 against CloseLong total 0 (more
than 2× larger) resolves the conflict in favour of OPEN_LONG. -/
theorem ensemble_conflict_witness :
    (aggregate ⟨2, 3/10⟩ Regime.TRENDING_STRONG sampleConflictWeights
      sampleConflictSignals).action = some Action.OPEN_LONG := by
  have hsc : actionScores (buildVotes sampleConflictWeights
      sampleConflictSignals) =
      [(Action.OPEN_LONG,
        [⟨"trend_ema", .OPEN_LONG, 1, 1⟩, ⟨"supertrend", .OPEN_LONG, 1, 1⟩]),
       (Action.CLOSE_LONG, [⟨"turtle", .CLOSE_LONG, 1, 0⟩])] := by decide
  have h := ensemble_conflict_resolution ⟨2, 3/10⟩ Regime.TRENDING_STRONG
    sampleConflictWeights sampleConflictSignals (by decide) (by decide)
  obtain ⟨hagg, hmet⟩ := h.1 (by
    rw [hsc]
    simp [buyScore, sellScore, totalScore, weightedScore])
  apply hmet
  rw [hagg, hsc]
  simp [finishSignal, lookupVoters, totalScore, weightedScore,
    Bool.and_eq_true, decide_eq_true_iff]
  norm_num

theorem executeOpen_cbReject (cbCfg : CBConfig) (riskCfg : RiskConfig)
    (now : ℚ) (today : ℤ) (clientId symbol : String) (side : OrderSide)
    (price : ℚ) (strategyName : String) (stop tp atr : Option ℚ)
    (st : ExecState) (cb : CBState) (hcb : st.cbState = some cb)
    (hal : (cbCheck cbCfg now symbol price
      (markedEquity symbol price st.portfolio) none cb).allowed = false) :
    executeOpen cbCfg riskCfg now today clientId symbol side price
      strategyName stop tp atr st =
      ({ st with cbState := some (cbCheck cbCfg now symbol price
          (markedEquity symbol price st.portfolio) none cb).state },
        some ExecResult.rejected) := by
  simp only [executeOpen, hcb, hal]
  rfl

theorem executeOpen_riskReject (cbCfg : CBConfig) (riskCfg : RiskConfig)
    (now : ℚ) (today : ℤ) (clientId symbol : String) (side : OrderSide)
    (price : ℚ) (strategyName : String) (stop tp : Option ℚ)
    (atr : Option ℚ) (st : ExecState) (rs : RiskState) (a : ℚ)
    (hcbpass : ∀ cb, st.cbState = some cb →
      (cbCheck cbCfg now symbol price
        (markedEquity symbol price st.portfolio) none cb).allowed = true)
    (hrs : st.riskState = some rs) (hatr : atr = some a) (ha : ¬a = 0)
    (happ : (evaluateTrade riskCfg now today price a (3/2) none rs).2.approved
      = false) :
    (executeOpen cbCfg riskCfg now today clientId symbol side price
      strategyName stop tp atr st).2 = some ExecResult.rejected ∧
    (executeOpen cbCfg riskCfg now today clientId symbol side price
      strategyName stop tp atr st).1.orders = st.orders := by
  cases hc : st.cbState with
  | none =>
      simp only [executeOpen, hc, hrs, hatr, ha, happ]
      simp
  | some cb =>
      have hall := hcbpass cb hc
      simp only [executeOpen, hc, hall, hrs, hatr, ha, happ]
      simp

/-- C2: in `Executor.execute_signal` (paper mode), a Hold signal is a no-op
returning `None` with the whole state unchanged; open signals route through
`_execute_open`, where a circuit-breaker veto or a risk-manager veto
returns a Rejected result with the session order table unchanged; the
order table changes only when the breaker allowed the trade and — whenever
the risk manager was consulted (present, with a truthy ATR) — it approved;
close signals never touch the order table. -/
theorem executor_gating (cbCfg : CBConfig) (riskCfg : RiskConfig) (now : ℚ)
    (today : ℤ) (clientId symbol : String) (stop tp atr : Option ℚ)
    (currentPrice : ℚ) (strategyName : String) (st : ExecState) :
    (executeSignal cbCfg riskCfg now today clientId symbol .HOLD stop tp atr
      currentPrice strategyName st = (st, none)) ∧
    (executeSignal cbCfg riskCfg now today clientId symbol .OPEN_LONG stop tp
      atr currentPrice strategyName st =
      executeOpen cbCfg riskCfg now today clientId symbol .buy currentPrice
        strategyName stop tp atr st) ∧
    (executeSignal cbCfg riskCfg now today clientId symbol .OPEN_SHORT stop tp
      atr currentPrice strategyName st =
      executeOpen cbCfg riskCfg now today clientId symbol .sell currentPrice
        strategyName stop tp atr st) ∧
    (∀ (side : OrderSide) (cb : CBState), st.cbState = some cb →
      (cbCheck cbCfg now symbol currentPrice
        (markedEquity symbol currentPrice st.portfolio) none cb).allowed =
        false →
      (executeOpen cbCfg riskCfg now today clientId symbol side currentPrice
        strategyName stop tp atr st).2 = some ExecResult.rejected ∧
      (executeOpen cbCfg riskCfg now today clientId symbol side currentPrice
        strategyName stop tp atr st).1.orders = st.orders) ∧
    (∀ (side : OrderSide) (rs : RiskState) (a : ℚ),
      (∀ cb, st.cbState = some cb →
        (cbCheck cbCfg now symbol currentPrice
          (markedEquity symbol currentPrice st.portfolio) none cb).allowed =
          true) →
      st.riskState = some rs → atr = some a → ¬a = 0 →
      (evaluateTrade riskCfg now today currentPrice a (3/2) none
        rs).2.approved = false →
      (executeOpen cbCfg riskCfg now today clientId symbol side currentPrice
        strategyName stop tp atr st).2 = some ExecResult.rejected ∧
      (executeOpen cbCfg riskCfg now today clientId symbol side currentPrice
        strategyName stop tp atr st).1.orders = st.orders) ∧
    (∀ side : OrderSide,
      (executeOpen cbCfg riskCfg now today clientId symbol side currentPrice
        strategyName stop tp atr st).1.orders ≠ st.orders →
      (∀ cb, st.cbState = some cb →
        (cbCheck cbCfg now symbol currentPrice
          (markedEquity symbol currentPrice st.portfolio) none cb).allowed =
          true) ∧
      (∀ (rs : RiskState) (a : ℚ), st.riskState = some rs → atr = some a →
        ¬a = 0 →
        (evaluateTrade riskCfg now today currentPrice a (3/2) none
          rs).2.approved = true)) ∧
    ((executeSignal cbCfg riskCfg now today clientId symbol .CLOSE_LONG stop
        tp atr currentPrice strategyName st).1.orders = st.orders ∧
      (executeSignal cbCfg riskCfg now today clientId symbol .CLOSE_SHORT
        stop tp atr currentPrice strategyName st).1.orders = st.orders) := by
  refine ⟨rfl, rfl, rfl, ?_, ?_, ?_, ?_⟩
  · intro side cb hcb hal
    rw [executeOpen_cbReject cbCfg riskCfg now today clientId symbol side
      currentPrice strategyName stop tp atr st cb hcb hal]
    exact ⟨rfl, rfl⟩
  · intro side rs a hcbpass hrs hatr ha happ
    exact executeOpen_riskReject cbCfg riskCfg now today clientId symbol side
      currentPrice strategyName stop tp atr st rs a hcbpass hrs hatr ha happ
  · intro side hchanged
    constructor
    · intro cb hcb
      cases hal : (cbCheck cbCfg now symbol currentPrice
          (markedEquity symbol currentPrice st.portfolio) none cb).allowed with
      | true => rfl
      | false =>
          exfalso
          apply hchanged
          rw [executeOpen_cbReject cbCfg riskCfg now today clientId symbol side
            currentPrice strategyName stop tp atr st cb hcb hal]
    · intro rs a hrs hatr ha
      cases happ : (evaluateTrade riskCfg now today currentPrice a (3/2) none
          rs).2.approved with
      | true => rfl
      | false =>
          exfalso
          by_cases hcbpass : ∀ cb, st.cbState = some cb →
              (cbCheck cbCfg now symbol currentPrice
                (markedEquity symbol currentPrice st.portfolio) none
                cb).allowed = true
          · exact hchanged (executeOpen_riskReject cbCfg riskCfg now today
              clientId symbol side currentPrice strategyName stop tp atr st
              rs a hcbpass hrs hatr ha happ).2
          · push_neg at hcbpass
            obtain ⟨cb, hcb, hal⟩ := hcbpass
            apply hchanged
            rw [executeOpen_cbReject cbCfg riskCfg now today clientId symbol
              side currentPrice strategyName stop tp atr st cb hcb
              (Bool.eq_false_iff.mpr hal)]
  · constructor <;>
      · show (executePaperClose cbCfg riskCfg now symbol currentPrice
          st).1.orders = st.orders
        cases hpf : st.portfolio with
        | none => simp [executePaperClose, hpf]
        | some pf =>
            cases hlk : pf.positions.lookup symbol with
            | none => simp [executePaperClose, hpf, hlk]
            | some pos =>
                cases hcl : (if pos.side = PosSide.LONG then
                    closeLong pf symbol currentPrice
                  else closeShort pf symbol currentPrice).2 with
                | ok res => simp [executePaperClose, hpf, hlk, hcl]
                | error e => simp [executePaperClose, hpf, hlk, hcl]

/-- Closed instance of C2: with an active portfolio-wide breaker trip, an
OpenLong at $50,000 is Rejected and no order is created. -/
theorem executor_gating_witness :
    (executeOpen defaultCBConfig scenarioRiskConfig 10 0 "HOT_X" "BTC/USDT"
      OrderSide.buy 50000 "trend_ema" none none (some 500)
      trippedExecState).2 = some ExecResult.rejected ∧
    (executeOpen defaultCBConfig scenarioRiskConfig 10 0 "HOT_X" "BTC/USDT"
      OrderSide.buy 50000 "trend_ema" none none (some 500)
      trippedExecState).1.orders = trippedExecState.orders := by
  have h := executor_gating defaultCBConfig scenarioRiskConfig 10 0 "HOT_X"
    "BTC/USDT" none none (some 500) 50000 "trend_ema" trippedExecState
  exact h.2.2.2.1 OrderSide.buy trippedCB rfl (by decide)

theorem checkAssetDrop_trips_mono (cfg : CBConfig) (now : ℚ) (symbol : String)
    (price : ℚ) (s : CBState) (trip : BreakerTrip) (h : trip ∈ s.trips) :
    trip ∈ (checkAssetDrop cfg now symbol price s).1.trips := by
  unfold checkAssetDrop
  repeat' split
  all_goals first
    | exact h
    | exact List.mem_append_left _ h

theorem checkFlashCrash_trips_mono (cfg : CBConfig) (now : ℚ) (symbol : String)
    (price : ℚ) (s : CBState) (trip : BreakerTrip) (h : trip ∈ s.trips) :
    trip ∈ (checkFlashCrash cfg now symbol price s).1.trips := by
  unfold checkFlashCrash
  dsimp only
  repeat' split
  all_goals first
    | exact h
    | exact List.mem_append_left _ h

theorem checkPortfolioKill_trips_mono (cfg : CBConfig) (now : ℚ)
    (currentValue sodValue : ℚ) (s : CBState) (trip : BreakerTrip)
    (h : trip ∈ s.trips) :
    trip ∈ (checkPortfolioKill cfg now currentValue sodValue s).1.trips := by
  unfold checkPortfolioKill
  repeat' split
  all_goals first
    | exact h
    | exact List.mem_append_left _ h

theorem cbCheck_trips_mono (cfg : CBConfig) (now : ℚ) (symbol : String)
    (price : ℚ) (pv iv : Option ℚ) (s : CBState) (trip : BreakerTrip)
    (h : trip ∈ s.trips) :
    trip ∈ (cbCheck cfg now symbol price pv iv s).state.trips := by
  have h1 : trip ∈ (recordPrice now symbol price s).trips := h
  have hA := checkAssetDrop_trips_mono cfg now symbol price
    (recordPrice now symbol price s) trip h1
  have hF := checkFlashCrash_trips_mono cfg now symbol price
    (checkAssetDrop cfg now symbol price (recordPrice now symbol price s)).1
    trip hA
  unfold cbCheck
  dsimp only
  repeat' split
  all_goals first
    | exact h1
    | exact hA
    | exact hF
    | exact checkPortfolioKill_trips_mono _ _ _ _ _ _ hF

theorem stepCB_preserves_trip (cfg : CBConfig) (t' : ℚ) (op : CBOp)
    (s : CBState) (trip : BreakerTrip) (hmem : trip ∈ s.trips)
    (hact : t' < trip.expiresAt) :
    trip ∈ (stepCB cfg t' s op).trips := by
  cases op with
  | check symbol price pv iv =>
      exact cbCheck_trips_mono cfg t' symbol price pv iv s trip hmem
  | recordTick symbol price => exact hmem
  | tradeResult pnl =>
      simp only [stepCB, registerTradeResult]
      by_cases hp : pnl < 0
      · rw [if_pos hp]
        by_cases hl : cfg.consecutiveLossLimit ≤ s.consecutiveLosses + 1
        · rw [if_pos hl]
          exact List.mem_append_left _ hmem
        · rw [if_neg hl]; exact hmem
      · rw [if_neg hp]; exact hmem
  | resetDaily pv =>
      refine List.mem_filter.mpr ⟨hmem, ?_⟩
      simp [tripIsActive, hact]

theorem applyCBOps_preserves_trip (cfg : CBConfig) :
    ∀ (ops : List (ℚ × CBOp)) (s : CBState) (trip : BreakerTrip),
      trip ∈ s.trips → (∀ p ∈ ops, p.1 < trip.expiresAt) →
      trip ∈ (applyCBOps cfg ops s).trips
  | [], _, _, hmem, _ => hmem
  | (t', op) :: rest, s, trip, hmem, hall =>
      applyCBOps_preserves_trip cfg rest (stepCB cfg t' s op) trip
        (stepCB_preserves_trip cfg t' op s trip hmem
          (hall (t', op) (List.mem_cons_self _ _)))
        (fun p hp => hall p (List.mem_cons_of_mem _ hp))

theorem tripsBlock_of_mem (now : ℚ) (symbol : String)
    (trips : List BreakerTrip) (trip : BreakerTrip) (hmem : trip ∈ trips)
    (hact : now < trip.expiresAt)
    (hsym : trip.symbol = none ∨ trip.symbol = some symbol) :
    tripsBlock now symbol trips = true := by
  unfold tripsBlock
  rw [List.any_eq_true]
  refine ⟨trip, hmem, ?_⟩
  simp [tripIsActive, hact, hsym]

theorem cbCheck_blocked (cfg : CBConfig) (now : ℚ) (symbol : String)
    (price : ℚ) (pv iv : Option ℚ) (s : CBState)
    (h : tripsBlock now symbol s.trips = true) :
    (cbCheck cfg now symbol price pv iv s).allowed = false := by
  unfold cbCheck
  have h2 : tripsBlock now symbol (recordPrice now symbol price s).trips =
      true := h
  rw [if_pos h2]

/-- C1: when the drop from the asset-window high to the current price
reaches `asset_drop_pct` (and no already-active trip short-circuits the
check), `check` returns `allowed = false`, appends an asset-level
`BreakerTrip` for the symbol expiring one hour (3600 s) later, and every
subsequent `check` call for that symbol before that expiry — across any
interleaving of `check`, `record_price`, `register_trade_result` and
`reset_daily` calls before the expiry — also returns `allowed = false`. -/
theorem asset_drop_trips_and_blocks (cfg : CBConfig) (now : ℚ)
    (symbol : String) (price : ℚ) (pv iv : Option ℚ) (s : CBState) (high : ℚ)
    (hnotrip : tripsBlock now symbol (recordPrice now symbol price s).trips =
      false)
    (hhigh : windowHigh cfg now symbol (recordPrice now symbol price s) =
      some high)
    (hpos : 0 < high)
    (hdrop : cfg.assetDropPct ≤ (high - price) / high) :
    (cbCheck cfg now symbol price pv iv s).allowed = false ∧
    (⟨.asset, some symbol, now, now + 3600⟩ : BreakerTrip) ∈
      (cbCheck cfg now symbol price pv iv s).state.trips ∧
    (∀ ops : List (ℚ × CBOp), (∀ p ∈ ops, p.1 < now + 3600) →
      ∀ t2 : ℚ, t2 < now + 3600 → ∀ (price2 : ℚ) (pv2 iv2 : Option ℚ),
        (cbCheck cfg t2 symbol price2 pv2 iv2
          (applyCBOps cfg ops
            (cbCheck cfg now symbol price pv iv s).state)).allowed = false) := by
  have hs1ne : (recordPrice now symbol price s).priceHistory symbol ≠ [] := by
    intro hnil
    unfold windowHigh windowPrices at hhigh
    rw [hnil] at hhigh
    simp at hhigh
  have hasset : checkAssetDrop cfg now symbol price
      (recordPrice now symbol price s) =
      (tripAsset now symbol (recordPrice now symbol price s), false) := by
    unfold checkAssetDrop
    rw [if_neg hs1ne]
    simp only [hhigh]
    rw [if_neg (not_le.mpr hpos), if_pos hdrop]
  have hcheck : cbCheck cfg now symbol price pv iv s =
      ⟨tripAsset now symbol (recordPrice now symbol price s), false,
        some BlockReason.assetDrop⟩ := by
    unfold cbCheck
    rw [if_neg (by rw [hnotrip]; exact Bool.false_ne_true)]
    simp only [hasset]
    simp
  have htrip : (⟨.asset, some symbol, now, now + 3600⟩ : BreakerTrip) ∈
      (cbCheck cfg now symbol price pv iv s).state.trips := by
    rw [hcheck]
    exact List.mem_append_right _ (List.mem_singleton_self _)
  refine ⟨by rw [hcheck], htrip, ?_⟩
  intro ops hops t2 ht2 price2 pv2 iv2
  have hkept := applyCBOps_preserves_trip cfg ops
    (cbCheck cfg now symbol price pv iv s).state
    ⟨.asset, some symbol, now, now + 3600⟩ htrip hops
  exact cbCheck_blocked cfg t2 symbol price2 pv2 iv2 _
    (tripsBlock_of_mem t2 symbol _ _ hkept ht2 (Or.inr rfl))

/-- Closed instance of C1: after a tick at $100, a check at $80 (a 20%
drop) is blocked, and a later check at `t = 1000` (before the one-hour
expiry, with an interleaved price tick) is still blocked. -/
theorem asset_drop_witness :
    (cbCheck defaultCBConfig 10 "BTC/USDT" 80 none none
      (recordPrice 0 "BTC/USDT" 100 freshCB)).allowed = false ∧
    (cbCheck defaultCBConfig 1000 "BTC/USDT" 95 none none
      (applyCBOps defaultCBConfig [(20, CBOp.recordTick "BTC/USDT" 90)]
        (cbCheck defaultCBConfig 10 "BTC/USDT" 80 none none
          (recordPrice 0 "BTC/USDT" 100 freshCB)).state)).allowed = false := by
  have h := asset_drop_trips_and_blocks defaultCBConfig 10 "BTC/USDT" 80 none
    none (recordPrice 0 "BTC/USDT" 100 freshCB) 100 (by decide)
    (by norm_num [windowHigh, windowPrices, recordPrice, freshCB,
      defaultCBConfig, maxQ, List.filter])
    (by norm_num) (by norm_num [defaultCBConfig])
  exact ⟨h.1, h.2.2 [(20, CBOp.recordTick "BTC/USDT" 90)] (by norm_num) 1000
    (by norm_num) 95 none none⟩

end HotCrypto
